import Mathlib

/-!
Verification development for the xwaykeyz input transformation engine.

This file shallowly embeds the parts of the engine that the verified
properties are about:

* `src/xwaykeyz/models/action.py`   -- `Action` and its predicates
* `src/xwaykeyz/models/modifier.py` -- the registered `Modifier` table
* `src/xwaykeyz/output.py`          -- the `Output` synthesizer
* `src/xwaykeyz/transform.py`       -- the event pipeline and engine state
* `src/xwaykeyz/lib/key_context.py` -- `KeyContext`, including `from_cache`
* `src/xwaykeyz/devices.py`         -- `DeviceRegistry.ungrab_all`
* `src/xwaykeyz/config_api.py`      -- `get_configuration` duplicate checks

Keys are embedded as naturals (the kernel key codes).  Python dictionaries
are embedded as association lists in insertion order (Python dicts preserve
insertion order); Python sets are embedded as duplicate-free lists whose
iteration order is modelled as insertion order.  Fallible operations
(Python statements that can raise) return `Except String`.

Several classes referenced by `transform.py` are not present under `src/`
(`models/key.py`, `models/combo.py`, `models/keymap.py`, and the members
`send_key_action_fast`, `_last_output_for_cache`, `clear_cache_tracking`
of `Output`).  Each such definition below carries a doc comment starting
with `Modelled from the spec:` and follows the specification text.
-/

namespace XWK

/-- `Action` from models/action.py: RELEASE, PRESS, REPEAT. -/
inductive Action where
  | release
  | press
  | repeatA
deriving DecidableEq, Repr

namespace Action

/-- `Action.is_pressed`: PRESS or REPEAT. -/
def isPressed : Action → Bool
  | .press => true
  | .repeatA => true
  | .release => false

/-- `Action.just_pressed`: PRESS only. -/
def justPressed : Action → Bool
  | .press => true
  | _ => false

/-- `Action.is_released`: RELEASE only. -/
def isReleased : Action → Bool
  | .release => true
  | _ => false

/-- `Action.is_repeat`: REPEAT only. -/
def isRepeat : Action → Bool
  | .repeatA => true
  | _ => false

end Action

/-- A `Modifier` from models/modifier.py: a registration id and the list of
keys it carries (one key for specific modifiers, two for generic ones). -/
structure Modifier where
  mid : Nat
  keys : List Nat
deriving DecidableEq, Repr

/-- The modifiers registered at import time in models/modifier.py, with
their registration ids (`_IDS` counter) and evdev key codes:
RIGHT_CTRL=97, LEFT_CTRL=29, RIGHT_ALT=100, LEFT_ALT=56, RIGHT_SHIFT=54,
LEFT_SHIFT=42, RIGHT_META=126, LEFT_META=125, KEY_FN=464. -/
def R_CONTROL : Modifier := ⟨0, [97]⟩

def L_CONTROL : Modifier := ⟨1, [29]⟩

def CONTROL : Modifier := ⟨2, [29, 97]⟩

def R_ALT : Modifier := ⟨3, [100]⟩

def L_ALT : Modifier := ⟨4, [56]⟩

def ALT : Modifier := ⟨5, [56, 100]⟩

def R_SHIFT : Modifier := ⟨6, [54]⟩

def L_SHIFT : Modifier := ⟨7, [42]⟩

def SHIFT : Modifier := ⟨8, [42, 54]⟩

def R_META : Modifier := ⟨9, [126]⟩

def L_META : Modifier := ⟨10, [125]⟩

def META : Modifier := ⟨11, [125, 126]⟩

def FN_MOD : Modifier := ⟨12, [464]⟩

/-- `Modifier._BY_KEY`: only modifiers registered with a single key enter
the by-key table (see `Modifier.__init__`), in registration order. -/
def modifiersByKey : List (Nat × Modifier) :=
  [(97, R_CONTROL), (29, L_CONTROL), (100, R_ALT), (56, L_ALT),
   (54, R_SHIFT), (42, L_SHIFT), (126, R_META), (125, L_META), (464, FN_MOD)]

/-- `Modifier.is_key_modifier(key)`: key is in `_BY_KEY`. -/
def isKeyModifier (k : Nat) : Bool :=
  (modifiersByKey.lookup k).isSome

/-- `Modifier.from_key(key)`: `_BY_KEY[key]` (KeyError modelled as `none`). -/
def modifierFromKey (k : Nat) : Option Modifier :=
  modifiersByKey.lookup k

/-- `Modifier.get_keys()`. -/
def Modifier.getKeys (m : Modifier) : List Nat := m.keys

/-- `Modifier.get_key()`: `keys[0]`; every registered modifier has at least
one key, so the empty case is given a default. -/
def Modifier.getKey (m : Modifier) : Nat := m.keys.headD 0

/-- Modelled from the spec: `Combo` (models/combo.py is not under src/):
an unordered set of Modifiers plus one ordinary Key, hashable by
(sorted-modifier-ids, key).  Embedded as the list of modifiers in
construction order together with the key. -/
structure Combo where
  modifiers : List Modifier
  key : Nat
deriving DecidableEq, Repr

/-- Insertion sort on naturals, used to model the sorted-modifier-ids part
of a combo hash and the sorted modifier snapshot of the repeat cache. -/
def insSortInsert (x : Nat) : List Nat → List Nat
  | [] => [x]
  | y :: ys => if x ≤ y then x :: y :: ys else y :: insSortInsert x ys

def insSort : List Nat → List Nat
  | [] => []
  | x :: xs => insSortInsert x (insSort xs)

/-- Modelled from the spec: combo equality is by (sorted-modifier-ids, key),
the hash/equality the spec gives for `Combo`. -/
def comboEq (a b : Combo) : Bool :=
  insSort (a.modifiers.map Modifier.mid) = insSort (b.modifiers.map Modifier.mid)
    && a.key = b.key

/-- The window context data a provider returns / the engine caches:
wm_class, wm_name and the error flag (`_last_press_ctx_data` shape). -/
structure CtxData where
  wmClass : String
  wmName : String
  err : Bool
deriving DecidableEq, Repr

/-- The value stored in the `wndw_ctxt_error` slot of a `KeyContext`.
On a fresh query it is the provider's boolean; `KeyContext.from_cache`
stores the entire cached dict there (`cached_wndw_ctxt_error` receives
`_last_press_ctx_data`), so the slot can hold a dict. -/
inductive ErrVal where
  | b : Bool → ErrVal
  | dict : CtxData → ErrVal
deriving DecidableEq, Repr

/-- Python truthiness of the `wndw_ctxt_error` slot: a boolean is itself; a
(non-empty, three-key) dict is truthy. -/
def truthy : ErrVal → Bool
  | .b v => v
  | .dict _ => true

/-- The `_X_ctx` record of a `KeyContext` once resolved. -/
structure XCtx where
  wmClass : String
  wmName : String
  errVal : ErrVal
deriving DecidableEq, Repr

/-- `KeyContext.wm_class` property: `self._X_ctx["wm_class"] or "ERR: ..."`
(an empty string is falsy and yields the fallback string). -/
def ctxWmClassProp (x : XCtx) : String :=
  if x.wmClass = "" then "ERR: KeyContext: NoneType in wm_class" else x.wmClass

/-- `KeyContext.wm_name` property, same falsy-fallback pattern. -/
def ctxWmNameProp (x : XCtx) : String :=
  if x.wmName = "" then "ERR: KeyContext: NoneType in wm_name" else x.wmName

/-- `KeyContext.from_cache(device, cached_wndw_ctxt_error)` as called from
`on_event` with `_last_press_ctx_data` as the second argument: the
constructed `_X_ctx` has empty wm_class and wm_name and the whole cached
dict in the `wndw_ctxt_error` slot. -/
def fromCache (cached : CtxData) : XCtx :=
  ⟨"", "", .dict cached⟩

/-- A freshly queried `KeyContext` (PRESS path): the provider's data with
the boolean error flag.  The window-context provider is out of scope; this
models the interface value `(wm_class, wm_name, error?)` it returns. -/
def freshCtx (provider : CtxData) : XCtx :=
  ⟨provider.wmClass, provider.wmName, .b provider.err⟩

/-! ## Output synthesizer (src/xwaykeyz/output.py) -/

/-- One entry of the virtual-device event log: a key event written by
`uinput.write`, the sync after it, a verbatim forwarded event
(`send_event`), or a throttle sleep of the given milliseconds. -/
inductive OutEvent where
  | keyEv : Nat → Action → OutEvent
  | syn : OutEvent
  | rawEv : OutEvent
  | sleepEv : Rat → OutEvent
deriving DecidableEq, Repr

/-- The key events of a log (what claims about "the sequence of key events
written to the output" compare). -/
def keyEvents (l : List OutEvent) : List (Nat × Action) :=
  l.filterMap fun e => match e with
    | .keyEv k a => some (k, a)
    | _ => none

/-- Total milliseconds slept in a log segment. -/
def totalSleepMs (l : List OutEvent) : Rat :=
  (l.map fun e => match e with
    | .sleepEv q => q
    | _ => 0).sum

/-- `sleep_ms(msec)` from output.py: returns immediately when `msec == 0`,
otherwise sleeps.  Embedded as the log entries it produces. -/
def sleepMsEvents (msec : Rat) : List OutEvent :=
  if msec = 0 then [] else [.sleepEv msec]

/-- The `_THROTTLES` dict of config_api.py. -/
structure Throttles where
  preMs : Rat
  postMs : Rat
deriving DecidableEq, Repr

/-- Modelled from the spec: the one-slot `last_output_for_cache` of the
output synthesizer (absent from output.py under src/, used by
transform.py): `('passthrough', (key, action))`, `('combo', combo)` or
`('key', key)`. -/
inductive TrackVal where
  | passthrough : Nat → Action → TrackVal
  | comboT : Combo → TrackVal
  | keyT : Nat → TrackVal
deriving DecidableEq, Repr

/-- The state of `Output`: the two pressed sets, the suspended-modifier
FIFO, the suspend depth, the cache tracking slot (spec-modelled) and the
log of everything written to the virtual device. -/
structure OutputState where
  pressedModKeys : List Nat
  pressedKeys : List Nat
  suspendedModKeys : List Nat
  suspendDepth : Int
  lastOutputForCache : Option TrackVal
  log : List OutEvent
deriving DecidableEq, Repr

/-- A fresh `Output()`. -/
def outputInit : OutputState :=
  ⟨[], [], [], 0, none, []⟩

/-- Python `set.add` with iteration order modelled as insertion order. -/
def setAdd (l : List Nat) (k : Nat) : List Nat :=
  if k ∈ l then l else l ++ [k]

/-- Python `set.discard` (no error when absent). -/
def setDiscard (l : List Nat) (k : Nat) : List Nat :=
  l.erase k

/-- `Output.__update_pressed_modifier_keys` (the `isinstance` check is done
by the caller embedding `send_key_action`). -/
def updatePressedModifierKeys (o : OutputState) (k : Nat) (a : Action) : OutputState :=
  if !isKeyModifier k then o
  else if a.isPressed then { o with pressedModKeys := setAdd o.pressedModKeys k }
  else { o with pressedModKeys := setDiscard o.pressedModKeys k }

/-- `Output.__update_pressed_keys`. -/
def updatePressedKeys (o : OutputState) (k : Nat) (a : Action) : OutputState :=
  if a.isPressed then { o with pressedKeys := setAdd o.pressedKeys k }
  else { o with pressedKeys := setDiscard o.pressedKeys k }

/-- Modelled from the spec: `send_key_action` records
`('passthrough', (key, action))` in `last_output_for_cache` iff the action
is a PRESS and the slot is empty (first-write-wins). -/
def recordPassthroughTrack (o : OutputState) (k : Nat) (a : Action) : OutputState :=
  if a.justPressed && o.lastOutputForCache.isNone then
    { o with lastOutputForCache := some (.passthrough k a) }
  else o

/-- `Output.send_key_action(key, action)` for a valid `Action` argument:
pre-delay, update the two sets, write the event, sync, post-delay.
The spec-modelled cache tracking record is appended via
`recordPassthroughTrack`. -/
def sendKeyAction (th : Throttles) (o : OutputState) (k : Nat) (a : Action) : OutputState :=
  let o := { o with log := o.log ++ sleepMsEvents th.preMs }
  let o := updatePressedModifierKeys o k a
  let o := updatePressedKeys o k a
  let o := { o with log := o.log ++ [.keyEv k a, .syn] }
  let o := recordPassthroughTrack o k a
  { o with log := o.log ++ sleepMsEvents th.postMs }

/-- The argument of a Python call site of `send_key_action`: either an
`Action` instance or a value of some other type. -/
inductive PyActionArg where
  | act : Action → PyActionArg
  | notAction : PyActionArg
deriving DecidableEq, Repr

/-- `Output.send_key_action` including its `isinstance(action, Action)`
check: a non-`Action` argument raises `TypeError` before any state is
touched. -/
def sendKeyActionChecked (th : Throttles) (o : OutputState) (k : Nat) :
    PyActionArg → Except String OutputState
  | .notAction => .error "TypeError: Expected type Action"
  | .act a => .ok (sendKeyAction th o k a)

/-- Modelled from the spec: `send_key_action_fast(key, action)` (absent
from output.py under src/, called by `transform_key`): identical to
`send_key_action` but using only the minimum delays (1 ms pre, 2 ms
post). -/
def sendKeyActionFast (o : OutputState) (k : Nat) (a : Action) : OutputState :=
  let o := { o with log := o.log ++ sleepMsEvents 1 }
  let o := updatePressedModifierKeys o k a
  let o := updatePressedKeys o k a
  let o := { o with log := o.log ++ [.keyEv k a, .syn] }
  let o := recordPassthroughTrack o k a
  { o with log := o.log ++ sleepMsEvents 2 }

/-- Modelled from the spec: `clear_cache_tracking` (absent from output.py
under src/, called by transform.py) empties the one-slot tracking. -/
def clearCacheTracking (o : OutputState) : OutputState :=
  { o with lastOutputForCache := none }

/-- `Output.is_mod_pressed(key)`. -/
def isModPressed (o : OutputState) (k : Nat) : Bool :=
  k ∈ o.pressedModKeys

/-- `Output.is_key_pressed(key)`. -/
def isKeyPressedOut (o : OutputState) (k : Nat) : Bool :=
  k ∈ o.pressedKeys

/-- `Output.send_event(event)`: forward verbatim, no state change. -/
def sendEventOut (o : OutputState) : OutputState :=
  { o with log := o.log ++ [.rawEv] }

/-- The set-subtraction loop at the top of `send_combo`: for each pressed
key, for each combo modifier, if the pressed key is one of the modifier's
keys, `set.remove` it from the lift set (KeyError when absent) and, only
if the modifier is still in the to-press list, `list.remove` it (the
guarded "fix" in output.py). -/
def comboLiftLoop (pressed : List Nat) (mods : List Modifier) :
    List Nat → List Modifier → Except String (List Nat × List Modifier)
  | lift, toPress =>
    match pressed with
    | [] => .ok (lift, toPress)
    | pk :: rest =>
      match comboLiftInner pk mods lift toPress with
      | .error e => .error e
      | .ok (lift, toPress) => comboLiftLoop rest mods lift toPress
where
  comboLiftInner (pk : Nat) : List Modifier → List Nat → List Modifier →
      Except String (List Nat × List Modifier)
    | [], lift, toPress => .ok (lift, toPress)
    | m :: ms, lift, toPress =>
      if pk ∈ m.getKeys then
        if pk ∈ lift then
          let lift := lift.erase pk
          let toPress := if m ∈ toPress then toPress.erase m else toPress
          comboLiftInner pk ms lift toPress
        else
          .error "KeyError: set.remove"
      else
        comboLiftInner pk ms lift toPress

/-- `Output.send_combo(combo)` (the active code of output.py lines
173-281): compute lift/press sets, release the lifted keys in reverse,
press one key per needed modifier, press and release the combo key,
release the pressed modifiers in reverse, then either park the lifted
keys in `suspended_mod_keys` (when suspending) or re-press them in
reverse.  The spec-modelled `('combo', combo)` tracking record is written
first-write-wins before the internal sends. -/
def sendCombo (th : Throttles) (cb : Combo) (o : OutputState) : Except String OutputState := do
  let o := if o.lastOutputForCache.isNone then
      { o with lastOutputForCache := some (.comboT cb) } else o
  let (lift, toPress) ←
    comboLiftLoop o.pressedModKeys cb.modifiers o.pressedModKeys cb.modifiers
  let step1 := lift.reverse.foldl
      (fun (acc : OutputState × List Nat) k =>
        (sendKeyAction th acc.1 k .release, acc.2 ++ [k]))
      (o, [])
  let o := step1.1
  let releasedModKeys := step1.2
  let step2 := (toPress.map Modifier.getKey).foldl
      (fun (acc : OutputState × List Nat) k =>
        (sendKeyAction th acc.1 k .press, acc.2 ++ [k]))
      (o, [])
  let o := step2.1
  let pressedModKeysL := step2.2
  let o := sendKeyAction th o cb.key .press
  let o := sendKeyAction th o cb.key .release
  let o := pressedModKeysL.reverse.foldl
      (fun acc k => sendKeyAction th acc k .release) o
  if o.suspendDepth > 0 then
    return { o with suspendedModKeys := o.suspendedModKeys ++ releasedModKeys }
  else
    return releasedModKeys.reverse.foldl
      (fun acc k => sendKeyAction th acc k .press) o

/-- `Output.send_key(key)`: `send_combo(Combo(None, key))`, with the
spec-modelled `('key', key)` tracking record written first. -/
def sendKeyOut (th : Throttles) (k : Nat) (o : OutputState) : Except String OutputState :=
  let o := if o.lastOutputForCache.isNone then
      { o with lastOutputForCache := some (.keyT k) } else o
  sendCombo th ⟨[], k⟩ o

/-- `Output.shutdown()`: release every key in `pressed_keys.copy()`, then
every key in `pressed_modifier_keys.copy()` (the copies are taken before
each loop, as in the source). -/
def outputShutdown (th : Throttles) (o : OutputState) : OutputState :=
  let o := o.pressedKeys.foldl (fun acc k => sendKeyAction th acc k .release) o
  o.pressedModKeys.foldl (fun acc k => sendKeyAction th acc k .release) o

/-- `Output.allow_suspend()`. -/
def allowSuspend (o : OutputState) : OutputState :=
  { o with suspendDepth := o.suspendDepth + 1 }

/-- `Output.disallow_suspend()`: decrement; on reaching non-positive depth,
re-press every entry of `suspended_mod_keys` in FIFO order and clear it. -/
def disallowSuspend (th : Throttles) (o : OutputState) : OutputState :=
  let o := { o with suspendDepth := o.suspendDepth - 1 }
  if o.suspendDepth > 0 then o
  else
    let o := o.suspendedModKeys.foldl
      (fun acc k => sendKeyAction th acc k .press) o
    { o with suspendedModKeys := [] }

end XWK

namespace XWK

/-! ## Engine state (src/xwaykeyz/transform.py) -/

/-- `Keystate` from models/keystate.py.  `key`/`multikey` start as `None`;
`resolve_as_*` set `multikey` to a falsy value, modelled as `none`.
The `prior` snapshot and `time` stamp are never read by the embedded code
paths and are omitted. -/
structure Keystate where
  inkey : Nat
  action : Action
  key : Option Nat := none
  multikey : Option Nat := none
  suspended : Bool := false
  isMulti : Bool := false
  exertedOnOutput : Bool := false
  spent : Bool := false
  otherKeyPressedWhileHeld : Bool := false
deriving DecidableEq, Repr

/-- `Keystate.resolve_as_momentary()`. -/
def resolveAsMomentary (ks : Keystate) : Keystate :=
  { ks with isMulti := false, multikey := none }

/-- `Keystate.resolve_as_modifier()`: `key := multikey`. -/
def resolveAsModifier (ks : Keystate) : Keystate :=
  { ks with key := ks.multikey, isMulti := false, multikey := none }

/-- The `RepeatCache` dataclass of transform.py; `output_type`/`output_data`
are combined in a `TrackVal`. -/
structure RepeatCacheL where
  inkey : Nat
  modsHeld : List Nat
  outputTy : TrackVal
  valid : Bool
deriving DecidableEq, Repr

/-- Modelled from the spec: a keymap/modmap predicate over the window
context ("regex match / not-match" represented with exact wm_class
comparison; `always` is an absent conditional). -/
inductive KmCond where
  | always
  | wmClassIs : String → KmCond
  | wmClassNot : String → KmCond
deriving DecidableEq, Repr

/-- Evaluate a predicate on a context (reads the `wm_class` property). -/
def evalKmCond (c : KmCond) (x : XCtx) : Bool :=
  match c with
  | .always => true
  | .wmClassIs s => ctxWmClassProp x = s
  | .wmClassNot s => ctxWmClassProp x ≠ s

/-- The right-hand side of a keymap binding as walked by
`handle_commands`: a Combo, a Key, the hint sentinels, a nested keymap
(with its optional IMMEDIATELY trigger and mapping, tagged with an id
standing for Python object identity), a list, or `None`.  Opaque user
callables are outside the embedded fragment. -/
inductive Command where
  | comboCmd : Combo → Command
  | keyCmd : Nat → Command
  | escNextKeyCmd : Command
  | escNextComboCmd : Command
  | bindCmd : Command
  | ignoreCmd : Command
  | nullCmd : Command
  | kmCmd : Nat → Option Command → List (Combo × Command) → Command
  | listCmd : List Command → Command

/-- Modelled from the spec: a `Keymap` (models/keymap.py is not under
src/): a predicate over context and a mapping from combos to commands,
with an id standing for Python object identity. -/
structure Keymap where
  kid : Nat
  cond : KmCond
  pairs : List (Combo × Command)

/-- `Keymap.matches(ctx)`: the conditional holds (absent = always). -/
def kmMatches (km : Keymap) (x : XCtx) : Bool :=
  evalKmCond km.cond x

/-- Modelled from the spec: keymap `__getitem__`/`__contains__` by combo
hash equality (first matching pair). -/
def keymapLookup (km : Keymap) (cb : Combo) : Option Command :=
  (km.pairs.find? (fun p => comboEq p.1 cb)).map Prod.snd

/-- The linear scan of `transform_key`: the first active keymap containing
the combo wins. -/
def findComboInKeymaps (kms : List Keymap) (cb : Combo) : Option (Keymap × Command) :=
  match kms with
  | [] => none
  | km :: rest =>
    match keymapLookup km cb with
    | some cmd => some (km, cmd)
    | none => findComboInKeymaps rest cb

/-- The `_active_keymaps` global: `None`, one of the two escape sentinels,
or a list of keymaps. -/
inductive ActiveKm where
  | noneA
  | escNextKeyA
  | escNextComboA
  | list : List Keymap → ActiveKm

/-- A `Modmap` as consumed by `apply_modmap`: key mapping plus conditional
(`always` for the unconditional default, matching the get_configuration
contract that the default has no conditional). -/
structure ModmapE where
  mapping : List (Nat × Nat)
  cond : KmCond

/-- A `MultiModmap`: key to (momentary, held); the appended
`Action.RELEASE` third element is never read (`momentary, held, _`). -/
structure MultiModmapE where
  mapping : List (Nat × (Nat × Nat))
  cond : KmCond

/-- The configuration snapshot the engine runs with, as produced by
`get_configuration` (default modmap first) together with the globals of
transform.py/config_api.py it reads: timeouts, throttles, the
repeat-passthrough flag, and the window context the provider returns for
fresh queries.  `cacheEnabled` is modelled from the spec: the
"cache forcibly disabled" baseline of the repeat-cache fidelity property
skips the cache replay/populate blocks of `on_key`. -/
structure Cfg where
  modmapDefault : ModmapE
  modmapConds : List ModmapE
  multiDefault : MultiModmapE
  multiConds : List MultiModmapE
  keymaps : List Keymap
  timeoutMulti : Rat
  timeoutSuspend : Rat
  throttles : Throttles
  ignoreRepeating : Bool
  cacheEnabled : Bool
  providerCtx : CtxData

/-- The engine's mutable globals in transform.py. -/
structure EngineState where
  out : OutputState
  activeKeymaps : ActiveKm
  keyStates : List (Nat × Keystate)
  sticky : List (Nat × Nat)
  repeatCache : Option RepeatCacheL
  modifiersChangedSinceCache : Bool
  awaitingFirstRepeatKey : Option Nat
  firstRepeatProcessed : Bool
  suspendTimerArmed : Bool
  lastSuspendTimeout : Rat
  lastKey : Option Nat
  lastPressCtxData : CtxData

/-- The initial engine state (module import / `reset_transform`). -/
def engineInit : EngineState :=
  { out := outputInit
    activeKeymaps := .noneA
    keyStates := []
    sticky := []
    repeatCache := none
    modifiersChangedSinceCache := false
    awaitingFirstRepeatKey := none
    firstRepeatProcessed := false
    suspendTimerArmed := false
    lastSuspendTimeout := 0
    lastKey := none
    lastPressCtxData := ⟨"", "", false⟩ }

/-- `_key_states` write-through: update the stored entry when present
(Python mutates the shared `Keystate` object). -/
def ksSet (tbl : List (Nat × Keystate)) (k : Nat) (v : Keystate) : List (Nat × Keystate) :=
  tbl.map (fun p => if p.1 = k then (k, v) else p)

/-- `_key_states.pop(inkey, None)`. -/
def ksErase (tbl : List (Nat × Keystate)) (k : Nat) : List (Nat × Keystate) :=
  tbl.filter (fun p => p.1 ≠ k)

/-- Write the current event's keystate back into the table (no-op when the
object is not stored there). -/
def writeCur (st : EngineState) (cur : Keystate) : EngineState :=
  { st with keyStates := ksSet st.keyStates cur.inkey cur }

/-- Re-read the current event's keystate after a table-wide mutation (the
Python object is shared with the table when stored). -/
def readCur (st : EngineState) (cur : Keystate) : Keystate :=
  (st.keyStates.lookup cur.inkey).getD cur

/-- `invalidate_repeat_cache()`. -/
def invalidateRepeatCache (st : EngineState) : EngineState :=
  match st.repeatCache with
  | some rc =>
    { st with repeatCache := some { rc with valid := false }, firstRepeatProcessed := false }
  | none => st

/-- `_get_modifier_snapshot()`: pressed keystate keys that are modifiers,
sorted by key code. -/
def getModifierSnapshot (st : EngineState) : List Nat :=
  insSort ((((st.keyStates.map Prod.snd).filter (fun x => x.action.isPressed)).filterMap
    (fun x => x.key)).filter isKeyModifier)

/-- `none_pressed()`. -/
def nonePressed (st : EngineState) : Bool :=
  st.keyStates.isEmpty

/-- `get_pressed_mods()`. -/
def getPressedMods (st : EngineState) : List Modifier :=
  ((((st.keyStates.map Prod.snd).filter (fun x => x.action.isPressed)).filterMap
    (fun x => x.key)).filter isKeyModifier).filterMap modifierFromKey

/-- `is_sticky(key)`. -/
def isStickyKey (st : EngineState) (k : Nat) : Bool :=
  (st.sticky.lookup k).isSome

/-- `update_pressed_states(keystate)`. -/
def updatePressedStates (st : EngineState) (ks : Keystate) : EngineState :=
  let tbl := if ks.action = .release then ksErase st.keyStates ks.inkey else st.keyStates
  let tbl :=
    if (tbl.lookup ks.inkey).isNone then
      if ks.action = .press then tbl ++ [(ks.inkey, ks)] else tbl
    else tbl
  { st with keyStates := tbl }

/-- `is_suspended()`: the suspend timer exists. -/
def isSuspendedE (st : EngineState) : Bool :=
  st.suspendTimerArmed

/-- One iteration of the `resume_keys` loop over the snapshot of suspended
keystates: clear `spent`/`suspended`, skip sticky input keys, apply the
multi-key timeout fallback (with the shift+shift carve-out), and exert
the key on the output when not already exerted. -/
def resumeOne (th : Throttles) (snapshot : List Nat) (st : EngineState) (ink : Nat) :
    EngineState :=
  match st.keyStates.lookup ink with
  | none => st
  | some ks =>
    let ks := { ks with spent := false, suspended := false }
    let st := { st with keyStates := ksSet st.keyStates ink ks }
    let stickyHeld := match ks.key with
      | some k => isStickyKey st k
      | none => false
    if stickyHeld then st
    else
      let (st, ks) :=
        if ks.isMulti then
          if ks.otherKeyPressedWhileHeld then
            let ks := resolveAsModifier ks
            ({ st with keyStates := ksSet st.keyStates ink ks }, ks)
          else
            let othersLive := snapshot.filterMap (fun j => st.keyStates.lookup j)
            let otherMods := (othersLive.filter (fun e => e.key ≠ ks.key)).map (fun e => e.key)
            let special :=
              match otherMods with
              | [some k0] =>
                (k0 ∈ SHIFT.keys) &&
                (match ks.multikey with
                  | some mk => mk ∈ SHIFT.keys
                  | none => false) &&
                (st.lastKey = ks.key)
              | _ => false
            if special then (st, ks)
            else
              let ks := resolveAsModifier ks
              ({ st with keyStates := ksSet st.keyStates ink ks }, ks)
        else (st, ks)
      if !ks.exertedOnOutput then
        let ks := { ks with exertedOnOutput := true }
        let st := { st with keyStates := ksSet st.keyStates ink ks }
        { st with out := sendKeyAction th st.out (ks.key.getD 0) .press }
      else st

/-- `resume_keys()`: cancel the timer and materialize every suspended
keystate.  The Python loop iterates the object references captured up
front while mutating them; the snapshot of their inkeys is iterated and
each step re-reads live state. -/
def resumeKeys (th : Throttles) (st : EngineState) : EngineState :=
  if !isSuspendedE st then st
  else
    let st := { st with suspendTimerArmed := false, lastSuspendTimeout := 0 }
    let snapshot := (st.keyStates.filter (fun p => p.2.suspended)).map Prod.fst
    snapshot.foldl (resumeOne th snapshot) st

/-- `suspend_keys(timeout)`: mark every pressed keystate suspended, record
the timeout and arm the timer. -/
def suspendKeys (timeout : Rat) (st : EngineState) : EngineState :=
  let tbl := st.keyStates.map
    (fun p => if p.2.action.isPressed then (p.1, { p.2 with suspended := true }) else p)
  { st with keyStates := tbl, lastSuspendTimeout := timeout, suspendTimerArmed := true }

/-- `resuspend_keys(timeout)`: while suspended, a strictly shorter timeout
is ignored; otherwise the timer is cancelled and `suspend_keys` re-arms.
Called with no timer armed, `_suspend_timer.cancel()` raises. -/
def resuspendKeys (timeout : Rat) (st : EngineState) : Except String EngineState :=
  if isSuspendedE st ∧ timeout < st.lastSuspendTimeout then .ok st
  else if isSuspendedE st then
    .ok (suspendKeys timeout { st with suspendTimerArmed := false })
  else .error "AttributeError: NoneType has no attribute cancel"

/-- `suspend_or_resuspend_keys(timeout)`: total, because the
`resuspend_keys` call happens under the `is_suspended()` guard, where the
timer exists and `resuspend_keys` cannot raise (its body is inlined under
the guard). -/
def suspendOrResuspendKeys (timeout : Rat) (st : EngineState) : EngineState :=
  if isSuspendedE st then
    if timeout < st.lastSuspendTimeout then st
    else suspendKeys timeout { st with suspendTimerArmed := false }
  else suspendKeys timeout st

/-- `apply_modmap(keystate, ctx)`: set `key := inkey`, pick the first
conditional modmap containing the inkey whose predicate holds, else the
default; apply its mapping if it contains the inkey. -/
def applyModmap (cfg : Cfg) (ctx : XCtx) (ks : Keystate) : Keystate :=
  let inkey := ks.inkey
  let ks := { ks with key := some inkey }
  let active := (cfg.modmapConds.find?
      (fun mm => (mm.mapping.lookup inkey).isSome && evalKmCond mm.cond ctx)).getD
    cfg.modmapDefault
  match active.mapping.lookup inkey with
  | some mapped => { ks with key := some mapped }
  | none => ks

/-- `apply_multi_modmap(keystate, ctx)`: matching is on `inkey`, the lookup
is on `keystate.key`. -/
def applyMultiModmap (cfg : Cfg) (ctx : XCtx) (ks : Keystate) : Keystate :=
  let active := (cfg.multiConds.find?
      (fun mm => (mm.mapping.lookup ks.inkey).isSome && evalKmCond mm.cond ctx)).getD
    cfg.multiDefault
  match ks.key with
  | some k =>
    match active.mapping.lookup k with
    | some pr =>
      { ks with key := some pr.1, multikey := some pr.2, isMulti := true }
    | none => ks
  | none => ks

/-- `find_keystate_or_new(inkey, action)`: a fresh keystate, or the stored
one with its action updated in place (`prior`/`time` omitted). -/
def findKeystateOrNew (st : EngineState) (inkey : Nat) (action : Action) :
    EngineState × Keystate :=
  match st.keyStates.lookup inkey with
  | none => (st, { inkey := inkey, action := action })
  | some ks =>
    let ks := { ks with action := action }
    ({ st with keyStates := ksSet st.keyStates inkey ks }, ks)

end XWK

namespace XWK

/-! ## Repeat cache, sticky table, executor, matcher (transform.py) -/

/-- The replay arm of `try_replay_cached_repeat`: emit the cached output
(`passthrough` sends the live action; `combo`/`key` re-send the cached
value). -/
def replayCachedOutput (cfg : Cfg) (rc : RepeatCacheL) (key : Nat) (action : Action)
    (st : EngineState) : Except String (Bool × EngineState) :=
  match rc.outputTy with
  | .passthrough _ _ =>
    .ok (true, { st with out := sendKeyAction cfg.throttles st.out key action })
  | .comboT c =>
    match sendCombo cfg.throttles c st.out with
    | .error e => .error e
    | .ok o => .ok (true, { st with out := o })
  | .keyT k =>
    match sendKeyOut cfg.throttles k st.out with
    | .error e => .error e
    | .ok o => .ok (true, { st with out := o })

/-- `try_replay_cached_repeat(key, action)`: returns whether the cache hit
together with the updated engine state.  The modifier snapshot is compared
only when the modifier-changed flag is set (and the flag is cleared after
checking); a mismatch invalidates and forces re-evaluation. -/
def tryReplayCachedRepeat (cfg : Cfg) (key : Nat) (action : Action) (st : EngineState) :
    Except String (Bool × EngineState) :=
  match st.repeatCache with
  | none => .ok (false, st)
  | some rc =>
    if !rc.valid then .ok (false, st)
    else if key ≠ rc.inkey then .ok (false, st)
    else if st.modifiersChangedSinceCache then
      let curMods := getModifierSnapshot st
      let st := { st with modifiersChangedSinceCache := false }
      if curMods ≠ rc.modsHeld then .ok (false, invalidateRepeatCache st)
      else replayCachedOutput cfg rc key action st
    else replayCachedOutput cfg rc key action st

/-- `populate_repeat_cache(key, action)`: only on a REPEAT, only when the
tracking slot holds a value, and not inside a nested keymap (an active
list different from the registered top-level list, with Python object
identity modelled by keymap ids).  Every representable `TrackVal` is one
of the three cacheable output types. -/
def populateRepeatCache (cfg : Cfg) (key : Nat) (action : Action) (st : EngineState) :
    EngineState :=
  if !action.isRepeat then st
  else
    match st.out.lastOutputForCache with
    | none => { st with awaitingFirstRepeatKey := none }
    | some tv =>
      let nested : Bool :=
        match st.activeKeymaps with
        | .list l => !(l.map Keymap.kid == cfg.keymaps.map Keymap.kid)
        | _ => false
      if nested then
        { st with awaitingFirstRepeatKey := none, out := clearCacheTracking st.out }
      else
        { st with
            repeatCache := some ⟨key, getModifierSnapshot st, tv, true⟩
            modifiersChangedSinceCache := false
            awaitingFirstRepeatKey := none
            out := clearCacheTracking st.out }

/-- `simple_sticky(combo, output_combo)`: bind the first input modifier key
to the first output modifier key; if the input key is already exerted on
the output and the output combo does not cover it, lift it. -/
def simpleSticky (th : Throttles) (combo : Combo) (outputCombo : Combo) (st : EngineState) :
    EngineState × List (Nat × Nat) :=
  match combo.modifiers, outputCombo.modifiers with
  | [], _ => (st, [])
  | _, [] => (st, [])
  | im0 :: _, om0 :: _ =>
    let inkey := im0.getKey
    let outkey := om0.getKey
    let st :=
      match st.keyStates.lookup inkey with
      | some ks =>
        if ks.exertedOnOutput then
          let keyInOutput := outputCombo.modifiers.any (fun m => inkey ∈ m.keys)
          if !keyInOutput then
            let st := { st with out := sendKeyAction th st.out inkey .release }
            { st with keyStates := ksSet st.keyStates inkey { ks with exertedOnOutput := false } }
          else st
        else st
      | none => st
    (st, [(inkey, outkey)])

/-- `auto_sticky(combo, input_combo)`: refuse a second sticky while one
exists; otherwise install `simple_sticky(input_combo, combo)` and press
each bound output key not already pressed.  `input_combo=None` (the
recursive `handle_commands` call sites) would raise. -/
def autoSticky (th : Throttles) (cb : Combo) (inputCombo : Option Combo) (st : EngineState) :
    Except String EngineState :=
  if st.sticky.length > 0 then .ok st
  else
    match inputCombo with
    | none => .error "AttributeError: NoneType has no attribute modifiers"
    | some ic =>
      let pr := simpleSticky th ic cb st
      let st := { pr.1 with sticky := pr.2 }
      .ok (pr.2.foldl
        (fun s p =>
          if !isModPressed s.out p.2 then
            { s with out := sendKeyAction th s.out p.2 .press }
          else s) st)

/-- The spent-marking loop of `transform_key`: every currently pressed
keystate whose key the output does not hold as a modifier is marked
spent. -/
def markSpent (st : EngineState) : EngineState :=
  { st with keyStates := st.keyStates.map (fun p =>
      if p.2.action.isPressed &&
         !(match p.2.key with
           | some k => isModPressed st.out k
           | none => false) then
        (p.1, { p.2 with spent := true })
      else p) }

mutual

/-- `handle_commands(commands, ...)` for a list argument: resuspend any
keys still suspended, then run the command loop inside the
`suspend_when_lifting` wrapper (`allow_suspend` on entry,
`disallow_suspend` on every exit).  The first argument bounds the
recursion depth (Python recursion is stack-bounded); the entry point
passes a bound that the command structure can never exhaust. -/
def handleCommandsL : Nat → Cfg → List Command → Option Combo → EngineState →
    Except String (EngineState × Bool)
  | 0, _, _, _, _ => .error "RecursionError"
  | fuel + 1, cfg, cmds, inputCombo, st =>
    match (if isSuspendedE st then resuspendKeys cfg.timeoutSuspend st else .ok st) with
    | .error e => .error e
    | .ok st1 =>
      let st2 := { st1 with out := allowSuspend st1.out }
      match cmdLoop fuel cfg cmds inputCombo false st2 with
      | .ok (st3, r) => .ok ({ st3 with out := disallowSuspend cfg.throttles st3.out }, r)
      | .error e => .error e

/-- The command loop of `handle_commands`: one case per command variant;
`_next_bind` survives only across the BIND sentinel (its iteration skips
the reset at the loop bottom via `continue`); opaque user callables are
outside the embedded fragment. -/
def cmdLoop : Nat → Cfg → List Command → Option Combo → Bool → EngineState →
    Except String (EngineState × Bool)
  | 0, _, _, _, _, _ => .error "RecursionError"
  | fuel + 1, cfg, cmds, inputCombo, nextBind, st =>
    match cmds with
    | [] => .ok (st, true)
    | .comboCmd cb :: rest =>
      match (if nextBind then autoSticky cfg.throttles cb inputCombo st else .ok st) with
      | .error e => .error e
      | .ok st1 =>
        match sendCombo cfg.throttles cb st1.out with
        | .error e => .error e
        | .ok o => cmdLoop fuel cfg rest inputCombo false { st1 with out := o }
    | .keyCmd k :: rest =>
      match sendKeyOut cfg.throttles k st.out with
      | .error e => .error e
      | .ok o => cmdLoop fuel cfg rest inputCombo false { st with out := o }
    | .escNextKeyCmd :: _ => .ok ({ st with activeKeymaps := .escNextKeyA }, false)
    | .escNextComboCmd :: _ => .ok ({ st with activeKeymaps := .escNextComboA }, false)
    | .bindCmd :: rest => cmdLoop fuel cfg rest inputCombo true st
    | .ignoreCmd :: _ => .ok (st, true)
    | .kmCmd kid imm pairs :: _ =>
      match imm with
      | some (Command.listCmd cs) =>
        match handleCommandsL fuel cfg cs none st with
        | .error e => .error e
        | .ok (st1, _) =>
          .ok ({ st1 with activeKeymaps := .list [⟨kid, .always, pairs⟩] }, false)
      | some ic =>
        match handleCommandsL fuel cfg [ic] none st with
        | .error e => .error e
        | .ok (st1, _) =>
          .ok ({ st1 with activeKeymaps := .list [⟨kid, .always, pairs⟩] }, false)
      | none => .ok ({ st with activeKeymaps := .list [⟨kid, .always, pairs⟩] }, false)
    | .listCmd cs :: rest =>
      match handleCommandsL fuel cfg cs none st with
      | .error e => .error e
      | .ok (st1, false) => .ok (st1, false)
      | .ok (st1, true) => cmdLoop fuel cfg rest inputCombo false st1
    | .nullCmd :: rest => cmdLoop fuel cfg rest inputCombo false st

end

mutual

/-- Structural size of a command, used only to pick an ample recursion
bound for the executor. -/
def cmdSize : Command → Nat
  | .comboCmd _ => 1
  | .keyCmd _ => 1
  | .escNextKeyCmd => 1
  | .escNextComboCmd => 1
  | .bindCmd => 1
  | .ignoreCmd => 1
  | .nullCmd => 1
  | .kmCmd _ imm _ =>
    1 + (match imm with
      | some c => cmdSize c
      | none => 0)
  | .listCmd cs => 1 + cmdsSize cs

def cmdsSize : List Command → Nat
  | [] => 0
  | c :: rest => cmdSize c + cmdsSize rest

end

/-- `handle_commands` entry: a non-list argument is wrapped in a
singleton list; the recursion bound is ample for the command value. -/
def handleCommands (cfg : Cfg) (cmd : Command) (inputCombo : Option Combo)
    (st : EngineState) : Except String (EngineState × Bool) :=
  match cmd with
  | .listCmd cs => handleCommandsL (4 * cmdsSize cs + 8) cfg cs inputCombo st
  | c => handleCommandsL (4 * cmdSize c + 8) cfg [c] inputCombo st

/-- `transform_key(key, action, ctx)`. -/
def transformKey (cfg : Cfg) (key : Nat) (action : Action) (ctx : XCtx) (st : EngineState) :
    Except String EngineState :=
  if truthy ctx.errVal then
    let st := resumeKeys cfg.throttles st
    .ok { st with out := sendKeyAction cfg.throttles st.out key action }
  else
    let combo : Combo := ⟨getPressedMods st, key⟩
    match st.activeKeymaps with
    | .escNextKeyA =>
      .ok { st with out := sendKeyAction cfg.throttles st.out key action,
                    activeKeymaps := .noneA }
    | .escNextComboA =>
      if isKeyModifier key || action.isReleased then
        .ok { st with out := sendKeyAction cfg.throttles st.out key action }
      else
        let st := resumeKeys cfg.throttles st
        .ok { st with out := sendKeyAction cfg.throttles st.out key action,
                      activeKeymaps := .noneA }
    | ak =>
      let isTopLevel : Bool := match ak with | .noneA => true | _ => false
      let active := match ak with
        | .noneA => cfg.keymaps.filter (fun km => kmMatches km ctx)
        | .list l => l
        | _ => []
      let st := { st with activeKeymaps := .list active }
      match findComboInKeymaps active combo with
      | some pr =>
        let st := markSpent st
        match handleCommands cfg pr.2 (some combo) st with
        | .error e => .error e
        | .ok (st1, resetMode) =>
          .ok (if resetMode then { st1 with activeKeymaps := .noneA } else st1)
      | none =>
        let st :=
          if isTopLevel then
            let st := resumeKeys cfg.throttles st
            { st with out := sendKeyActionFast st.out key action }
          else st
        .ok { st with activeKeymaps := .noneA }

end XWK

namespace XWK

/-! ## Event pipeline (on_mod_key, on_key, on_event) -/

/-- One step of the event-based multikey resolution loop at the top of
`on_key`: a suspended, pressed multi-key resolves as its hold modifier
when any other key is pressed. -/
def resolveSuspendedMultisStep (th : Throttles) (st : EngineState) (ink : Nat) : EngineState :=
  match st.keyStates.lookup ink with
  | none => st
  | some ks =>
    if ks.isMulti && ks.suspended && ks.action.isPressed then
      let ks := resolveAsModifier ks
      let ks := { ks with suspended := false, otherKeyPressedWhileHeld := true }
      let st := { st with keyStates := ksSet st.keyStates ink ks }
      if !ks.exertedOnOutput then
        let st := { st with out := sendKeyAction th st.out (ks.key.getD 0) .press }
        { st with keyStates := ksSet st.keyStates ink { ks with exertedOnOutput := true } }
      else st
    else st

/-- The event-based multikey resolution loop of `on_key` over the keystate
table. -/
def resolveSuspendedMultis (th : Throttles) (st : EngineState) : EngineState :=
  (st.keyStates.map Prod.fst).foldl (resolveSuspendedMultisStep th) st

/-- The `action.is_released` arm of `on_mod_key`: sticky lift, silent
spent lift, or resume; returns the updated state, the live keystate and
the `hold_output` flag. -/
def onModKeyRelease (cfg : Cfg) (st : EngineState) (cur : Keystate) (key : Nat) :
    EngineState × Keystate × Bool :=
  if isStickyKey st key then
    let outkey := (st.sticky.lookup key).getD 0
    let st := { st with out := sendKeyAction cfg.throttles st.out outkey .release }
    let st := { st with sticky := st.sticky.filter (fun p => p.1 ≠ key) }
    (st, cur, !cur.exertedOnOutput)
  else if cur.spent then
    (st, cur, !cur.exertedOnOutput)
  else
    let st := resumeKeys cfg.throttles st
    (st, readCur st cur, false)

/-- `on_mod_key(keystate, ctx)` (the `ctx` parameter is unused in the
source).  Returns the updated engine state and the live keystate. -/
def onModKey (cfg : Cfg) (st0 : EngineState) (cur0 : Keystate) :
    EngineState × Keystate :=
  let key := cur0.key.getD 0
  let action := cur0.action
  let st := if action.isPressed || action.isReleased then
      { st0 with modifiersChangedSinceCache := true } else st0
  let shouldSuspend := action.isPressed && nonePressed st
  let pr :=
    if action.isPressed then (st, cur0, false)
    else if action.isReleased then onModKeyRelease cfg st cur0 key
    else (st, cur0, false)
  let st := pr.1
  let cur := pr.2.1
  let holdOutput := pr.2.2
  let st := updatePressedStates st cur
  let pr2 :=
    if shouldSuspend || isSuspendedE st then
      let cur := { cur with suspended := true }
      let st := writeCur st cur
      let st := if action.justPressed then suspendOrResuspendKeys cfg.timeoutSuspend st
        else st
      (st, readCur st cur, true)
    else (st, cur, holdOutput)
  let st := pr2.1
  let cur := pr2.2.1
  let holdOutput := pr2.2.2
  if !holdOutput then
    let st := { st with out := sendKeyAction cfg.throttles st.out key action }
    if action.isReleased then
      let cur := { cur with exertedOnOutput := false }
      (writeCur st cur, cur)
    else (st, cur)
  else (st, cur)

/-- The repeat-cache replay/invalidation block at the top of `on_key`
(gated by the spec's cache-forcibly-disabled baseline flag).  Returns
whether `on_key` returns early (cache hit) and the updated state. -/
def onKeyCacheBlock (cfg : Cfg) (key : Nat) (action : Action) (st : EngineState) :
    Except String (Bool × EngineState) :=
  if cfg.cacheEnabled && st.repeatCache.isSome then
    match (if action.isRepeat then tryReplayCachedRepeat cfg key action st
      else .ok (false, st)) with
    | .error e => .error e
    | .ok (true, st) => .ok (true, st)
    | .ok (false, st) =>
      match st.repeatCache with
      | some rc =>
        if action.justPressed && !isKeyModifier key then
          if rc.inkey ≠ key then .ok (false, invalidateRepeatCache st)
          else .ok (false, st)
        else if action.isReleased && key == rc.inkey then
          .ok (false, invalidateRepeatCache st)
        else .ok (false, st)
      | none => .ok (false, st)
  else .ok (false, st)

/-- The first-repeat promotion block of `on_key`: latch the flag, populate
the cache from the tracking preserved at the PRESS, and retry the
replay. -/
def onKeyFirstRepeatBlock (cfg : Cfg) (key : Nat) (action : Action) (st : EngineState) :
    Except String (Bool × EngineState) :=
  if cfg.cacheEnabled && action.isRepeat && !st.firstRepeatProcessed
      && !isKeyModifier key then
    let st := { st with firstRepeatProcessed := true }
    let st := populateRepeatCache cfg key action st
    if st.repeatCache.isSome then tryReplayCachedRepeat cfg key action st
    else .ok (false, st)
  else .ok (false, st)

/-- The awaiting-first-repeat clearing block of `on_key`. -/
def onKeyAwaitClear (key : Nat) (action : Action) (st : EngineState) : EngineState :=
  if action.justPressed && !isKeyModifier key then
    match st.awaitingFirstRepeatKey with
    | some aw =>
      if key ≠ aw then
        { st with awaitingFirstRepeatKey := none, firstRepeatProcessed := false,
                  out := clearCacheTracking st.out }
      else st
    | none => st
  else if action.isReleased && st.awaitingFirstRepeatKey == some key then
    { st with awaitingFirstRepeatKey := none, firstRepeatProcessed := false,
              out := clearCacheTracking st.out }
  else st

/-- The modifier / multi-key / release / passthrough dispatch of
`on_key`. -/
def onKeyDispatch (cfg : Cfg) (ctx : XCtx) (key : Nat) (action : Action)
    (st : EngineState) (cur : Keystate) : Except String (EngineState × Keystate) :=
  if isKeyModifier key then
    .ok (onModKey cfg st cur)
  else if cur.isMulti && action.justPressed then
    let cur := { cur with suspended := true, otherKeyPressedWhileHeld := false }
    let st := writeCur st cur
    let st := updatePressedStates st cur
    let st := suspendKeys cfg.timeoutMulti st
    .ok (st, readCur st cur)
  else if cur.isMulti && action.isRepeat && cur.suspended then
    .ok (st, cur)
  else if action.isReleased then
    let st := if isKeyPressedOut st.out key then
        { st with out := sendKeyAction cfg.throttles st.out key action }
      else st
    match (if cur.isMulti then
        let cur := if cur.otherKeyPressedWhileHeld then resolveAsModifier cur
          else resolveAsMomentary cur
        let st := writeCur st cur
        let st := resumeKeys cfg.throttles st
        let cur := readCur st cur
        match transformKey cfg key action ctx st with
        | .error e => .error e
        | .ok st => .ok (st, readCur st cur)
      else .ok (st, cur) : Except String (EngineState × Keystate)) with
    | .error e => .error e
    | .ok (st, cur) => .ok (updatePressedStates st (readCur st cur), cur)
  else
    match transformKey cfg key action ctx st with
    | .error e => .error e
    | .ok st => .ok (st, cur)

/-- The end-of-`on_key` bookkeeping: arm the awaiting-first-repeat latch
after a non-modifier PRESS and record `_last_key`. -/
def onKeyTail (key : Nat) (action : Action) (st : EngineState) : EngineState :=
  let st := if action.justPressed && !isKeyModifier key then
      { st with awaitingFirstRepeatKey := some key } else st
  if action.justPressed then { st with lastKey := some key } else st

/-- `on_key(keystate, ctx)`. -/
def onKey (cfg : Cfg) (ctx : XCtx) (st0 : EngineState) (cur0 : Keystate) :
    Except String EngineState :=
  let key := cur0.key.getD 0
  let action := cur0.action
  match onKeyCacheBlock cfg key action st0 with
  | .error e => .error e
  | .ok (true, st) => .ok st
  | .ok (false, st) =>
    match onKeyFirstRepeatBlock cfg key action st with
    | .error e => .error e
    | .ok (true, st) => .ok st
    | .ok (false, st) =>
      let st := onKeyAwaitClear key action st
      let pr :=
        if action.justPressed && !cur0.isMulti then
          let st := resolveSuspendedMultis cfg.throttles st
          (st, readCur st cur0)
        else (st, cur0)
      match onKeyDispatch cfg ctx key action pr.1 pr.2 with
      | .error e => .error e
      | .ok (st, _) => .ok (onKeyTail key action st)

/-- An event delivered to `on_event`: a key event from a grabbed device, a
non-key event (or absent device reference), or the suspend timer firing
(the event loop invoking the `resume_keys` callback armed by
`loop.call_later`). -/
inductive InEvent where
  | key : Nat → Action → InEvent
  | nonKey : InEvent
  | timerFire : InEvent

/-- `on_event(event, device)` plus the timer callback. -/
def onEvent (cfg : Cfg) (ev : InEvent) (st : EngineState) : Except String EngineState :=
  match ev with
  | .timerFire => .ok (resumeKeys cfg.throttles st)
  | .nonKey => .ok { st with out := sendEventOut st.out }
  | .key code action =>
    let clear : Bool :=
      match st.awaitingFirstRepeatKey with
      | none => true
      | some aw => st.firstRepeatProcessed || code ≠ aw
    let st := if clear then { st with out := clearCacheTracking st.out } else st
    if cfg.ignoreRepeating && action.isRepeat then
      .ok { st with out := sendEventOut st.out }
    else
      let pr := findKeystateOrNew st code action
      let st := pr.1
      let cur := pr.2
      let ctx : XCtx :=
        if action.isReleased || action.isRepeat then fromCache st.lastPressCtxData
        else freshCtx cfg.providerCtx
      let st :=
        if action.justPressed then
          { st with lastPressCtxData :=
              ⟨ctxWmClassProp ctx, ctxWmNameProp ctx, truthy ctx.errVal⟩ }
        else st
      let cur :=
        if truthy ctx.errVal then
          { cur with key := some (cur.key.getD cur.inkey) }
        else cur
      let st := writeCur st cur
      let pr2 :=
        if cur.key.isNone then
          let cur := applyModmap cfg ctx cur
          let cur := applyMultiModmap cfg ctx cur
          (writeCur st cur, cur)
        else (st, cur)
      onKey cfg ctx pr2.1 pr2.2

/-- Run the engine over a list of events. -/
def runEngine (cfg : Cfg) (evs : List InEvent) (st : EngineState) :
    Except String EngineState :=
  match evs with
  | [] => .ok st
  | e :: rest =>
    match onEvent cfg e st with
    | .error msg => .error msg
    | .ok st1 => runEngine cfg rest st1

/-- The reachable engine states: the initial state, closed under event
processing. -/
inductive Reachable (cfg : Cfg) : EngineState → Prop where
  | init : Reachable cfg engineInit
  | step : ∀ {s s' : EngineState} {ev : InEvent},
      Reachable cfg s → onEvent cfg ev s = .ok s' → Reachable cfg s'

end XWK

namespace XWK

/-! ## Device registry (src/xwaykeyz/devices.py) -/

/-- The observable state of a `DeviceRegistry`: the `_devices` list, the
event-loop readers, and the devices on which `device.ungrab()` has been
invoked (`OSError` from `ungrab` is swallowed).  Devices are abstract
ids. -/
structure Registry where
  devices : List Nat
  readers : List Nat
  ungrabbed : List Nat
deriving DecidableEq, Repr

/-- `DeviceRegistry.ungrab(device)`: remove the event-loop reader, remove
the device from `_devices` (`list.remove`, first occurrence), call
`device.ungrab()`. -/
def registryUngrab (reg : Registry) (d : Nat) : Registry :=
  { reg with
      readers := reg.readers.erase d
      devices := reg.devices.erase d
      ungrabbed := reg.ungrabbed ++ [d] }

/-- The `for device in self._devices` loop of `ungrab_all`: a Python `for`
over a list is index-based, and `ungrab` removes the current element from
the very list being iterated, so the loop advances past the shifted
elements.  The loop runs at most as many iterations as the list initially
has elements (each iteration shortens the list), so structural recursion
on that bound is exact. -/
def ungrabAllLoop : Nat → Registry → Nat → Registry
  | 0, reg, _ => reg
  | bound + 1, reg, i =>
    if h : i < reg.devices.length then
      ungrabAllLoop bound (registryUngrab reg (reg.devices.get ⟨i, h⟩)) (i + 1)
    else reg

/-- `DeviceRegistry.ungrab_all()`. -/
def ungrabAll (reg : Registry) : Registry :=
  ungrabAllLoop reg.devices.length reg 0

/-! ## Configuration duplicate checks (src/xwaykeyz/config_api.py) -/

/-- A registered modmap or multi-modmap as seen by `get_configuration`:
only the presence of a conditional matters for the duplicate-default
check. -/
structure RegisteredMap where
  hasConditional : Bool
deriving DecidableEq, Repr

/-- The outcome of `get_configuration()`: either `sys.exit(code)` was
called, or the reordered (default-first) modmap and multi-modmap lists
are returned. -/
inductive ConfigResult where
  | exited : Nat → ConfigResult
  | ok : List RegisteredMap → List RegisteredMap → ConfigResult
deriving DecidableEq, Repr

/-- `get_configuration()`: split each list into conditionals and defaults,
substitute a fresh default when none exists, and `sys.exit(0)` when more
than one default (non-conditional) modmap or multi-modmap was
registered. -/
def getConfiguration (modmaps multiModmaps : List RegisteredMap) : ConfigResult :=
  let conditionals := modmaps.filter (fun mm => mm.hasConditional)
  let defaults := modmaps.filter (fun mm => !mm.hasConditional)
  let defaults := if defaults.isEmpty then [⟨false⟩] else defaults
  if defaults.length > 1 then .exited 0
  else
    let modmapsOut := defaults ++ conditionals
    let mConditionals := multiModmaps.filter (fun mm => mm.hasConditional)
    let mDefaults := multiModmaps.filter (fun mm => !mm.hasConditional)
    let mDefaults := if mDefaults.isEmpty then [⟨false⟩] else mDefaults
    if mDefaults.length > 1 then .exited 0
    else .ok modmapsOut (mDefaults ++ mConditionals)

/-! ## Output-operation runner (for the output bookkeeping invariant) -/

/-- A call into the `Output` API. -/
inductive OutOp where
  | ska : Nat → PyActionArg → OutOp
  | comboOp : Combo → OutOp
  | keyOp : Nat → OutOp
  | shutdownOp : OutOp
  | sendEventOp : OutOp
deriving Repr

/-- Apply one `Output` call. -/
def applyOutOp (th : Throttles) (o : OutputState) : OutOp → Except String OutputState
  | .ska k a => sendKeyActionChecked th o k a
  | .comboOp c => sendCombo th c o
  | .keyOp k => sendKeyOut th k o
  | .shutdownOp => .ok (outputShutdown th o)
  | .sendEventOp => .ok (sendEventOut o)

/-- Run a sequence of `Output` calls; an exception stops the run and
leaves the state of the last successful call. -/
def runOuts (th : Throttles) (o : OutputState) : List OutOp → OutputState × Option String
  | [] => (o, none)
  | op :: rest =>
    match applyOutOp th o op with
    | .ok o1 => runOuts th o1 rest
    | .error e => (o, some e)

/-- The projection the repeat-cache fidelity property compares: the key
events a run writes to the virtual device. -/
def runKeyEvents (cfg : Cfg) (evs : List InEvent) : Option (List (Nat × Action)) :=
  match runEngine cfg evs engineInit with
  | .ok st => some (keyEvents st.out.log)
  | .error _ => none

end XWK

namespace XWK

/-! ## Concrete scenario instances used by the verified properties -/

/-- A configuration with a single always-active keymap binding the bare
key 45 (KEY_X) to the plain key 21 (KEY_Y), repeat passthrough off so
that REPEAT events reach the pipeline, and zero configured throttles.
`cache` selects between the engine as shipped and the spec's
cache-forcibly-disabled baseline. -/
def cfgXtoY (cache : Bool) : Cfg :=
  { modmapDefault := ⟨[], .always⟩
    modmapConds := []
    multiDefault := ⟨[], .always⟩
    multiConds := []
    keymaps := [⟨0, .always, [(⟨[], 45⟩, .keyCmd 21)]⟩]
    timeoutMulti := 1
    timeoutSuspend := 1
    throttles := ⟨0, 0⟩
    ignoreRepeating := false
    cacheEnabled := cache
    providerCtx := ⟨"app", "win", false⟩ }

/-- The repeat-cache fidelity trace: a PRESS of key 45, one REPEAT, the
final RELEASE (and no modifier events at all). -/
def trPRL : List InEvent :=
  [.key 45 .press, .key 45 .repeatA, .key 45 .release]

/-- A configuration with no keymaps at all (pure passthrough). -/
def cfgEmpty : Cfg :=
  { modmapDefault := ⟨[], .always⟩
    modmapConds := []
    multiDefault := ⟨[], .always⟩
    multiConds := []
    keymaps := []
    timeoutMulti := 1
    timeoutSuspend := 1
    throttles := ⟨0, 0⟩
    ignoreRepeating := true
    cacheEnabled := true
    providerCtx := ⟨"app", "win", false⟩ }

/-- A window context captured at a PRESS with no error. -/
def pressCtxFirefox : CtxData :=
  ⟨"Firefox", "Mozilla Firefox", false⟩

/-- The output bookkeeping invariant: the pressed-modifier set is exactly
the modifier subset of the pressed set. -/
def outInvariant (o : OutputState) : Prop :=
  o.pressedModKeys = o.pressedKeys.filter (fun k => isKeyModifier k)

end XWK

namespace XWK

/-! ## Helper lemmas -/

theorem updatePressedModifierKeys_log (o : OutputState) (k : Nat) (a : Action) :
    (updatePressedModifierKeys o k a).log = o.log := by
  unfold updatePressedModifierKeys
  split
  · rfl
  · split <;> rfl

theorem updatePressedKeys_log (o : OutputState) (k : Nat) (a : Action) :
    (updatePressedKeys o k a).log = o.log := by
  unfold updatePressedKeys
  split <;> rfl

theorem recordPassthroughTrack_log (o : OutputState) (k : Nat) (a : Action) :
    (recordPassthroughTrack o k a).log = o.log := by
  unfold recordPassthroughTrack
  split <;> rfl

theorem sendKeyAction_log (th : Throttles) (o : OutputState) (k : Nat) (a : Action) :
    (sendKeyAction th o k a).log =
      o.log ++ sleepMsEvents th.preMs ++ [OutEvent.keyEv k a, OutEvent.syn]
        ++ sleepMsEvents th.postMs := by
  unfold sendKeyAction
  simp [updatePressedModifierKeys_log, updatePressedKeys_log, recordPassthroughTrack_log]

theorem keyEvents_append (l1 l2 : List OutEvent) :
    keyEvents (l1 ++ l2) = keyEvents l1 ++ keyEvents l2 := by
  unfold keyEvents
  exact List.filterMap_append l1 l2 _

theorem keyEvents_sleepMsEvents (q : Rat) : keyEvents (sleepMsEvents q) = [] := by
  unfold sleepMsEvents
  split <;> rfl

theorem keyEvents_sendKeyAction (th : Throttles) (o : OutputState) (k : Nat) (a : Action) :
    keyEvents (sendKeyAction th o k a).log = keyEvents o.log ++ [(k, a)] := by
  rw [sendKeyAction_log]
  have h1 := keyEvents_sleepMsEvents th.preMs
  have h2 := keyEvents_sleepMsEvents th.postMs
  unfold keyEvents at *
  simp [List.filterMap_append, h1, h2]

end XWK

namespace XWK

/-! ## Claim theorems -/

/-- C2: the repeat-cache fidelity claim fails on the code.  For the trace
PRESS 45, REPEAT 45, RELEASE 45 with no intervening modifier change and a
rule mapping bare 45 to key 21, the engine with the repeat cache enabled
replays the remapped output (press/release of 21) on the REPEAT, while
the cache-forcibly-disabled baseline re-evaluates the pipeline with the
replayed context -- which `KeyContext.from_cache` always flags as a
window-context error -- and passes the raw 45 REPEAT through, then also
releases 45.  The two output key-event sequences differ. -/
theorem C2_cache_fidelity_fails :
    runKeyEvents (cfgXtoY true) trPRL =
      some [(21, .press), (21, .release), (21, .press), (21, .release)] ∧
    runKeyEvents (cfgXtoY false) trPRL =
      some [(21, .press), (21, .release), (45, .repeatA), (45, .release)] ∧
    runKeyEvents (cfgXtoY true) trPRL ≠ runKeyEvents (cfgXtoY false) trPRL :=
  ⟨by decide, by decide, by decide⟩

/-- C3: the claim that REPEAT/RELEASE events replay the window context
captured at the originating PRESS fails on the code.  With the cached
press context (wm_class "Firefox", wm_name "Mozilla Firefox", no error),
the `KeyContext` built by `from_cache` reports a fallback error string as
wm_class and wm_name, and its window-context-error slot holds the whole
cached dict, which is truthy even though the cached error flag was
false. -/
theorem C3_repeat_context_not_press_context :
    ctxWmClassProp (fromCache pressCtxFirefox) ≠ pressCtxFirefox.wmClass ∧
    ctxWmNameProp (fromCache pressCtxFirefox) ≠ pressCtxFirefox.wmName ∧
    truthy (fromCache pressCtxFirefox).errVal = true ∧
    pressCtxFirefox.err = false :=
  ⟨by decide, by decide, by decide, by decide⟩

/-- C4: with more than one unconditional (default) modmap, or more than
one unconditional multi-modmap, `get_configuration` terminates the
process -- but through `sys.exit(0)`, so the exit code is zero, not the
non-zero code the claim (and the CLI contract of the spec) requires. -/
theorem C4_duplicate_default_modmap_exits_zero :
    getConfiguration [⟨false⟩, ⟨false⟩] [] = ConfigResult.exited 0 ∧
    getConfiguration [] [⟨false⟩, ⟨false⟩] = ConfigResult.exited 0 :=
  ⟨by decide, by decide⟩

/-- C9: `ungrab_all` on a registry holding devices [1, 2] ungrabs only
device 1 and leaves device 2 both grabbed and in the device list, because
the loop iterates the same list that `ungrab` removes elements from.  The
claim that every registered device is ungrabbed and the list ends empty
fails. -/
theorem C9_ungrab_all_skips_devices :
    ungrabAll ⟨[1, 2], [1, 2], []⟩ = ⟨[2], [2], [1]⟩ ∧
    (ungrabAll ⟨[1, 2], [1, 2], []⟩).devices ≠ [] ∧
    2 ∉ (ungrabAll ⟨[1, 2], [1, 2], []⟩).ungrabbed :=
  ⟨by decide, by decide, by decide⟩

/-- C5 as stated is false: with both configured throttle delays zero,
`send_key_action` performs no sleep at all (`sleep_ms(0)` returns
immediately), so it does not sleep at least 1 ms before the write nor at
least 2 ms after the sync. -/
theorem C5_counterexample :
    totalSleepMs (sendKeyAction ⟨0, 0⟩ outputInit 30 Action.press).log = 0 ∧
    ¬ (1 ≤ totalSleepMs (sendKeyAction ⟨0, 0⟩ outputInit 30 Action.press).log) := by
  have hlog : (sendKeyAction ⟨0, 0⟩ outputInit 30 Action.press).log =
      [.keyEv 30 .press, .syn] := by decide
  rw [hlog]
  unfold totalSleepMs
  norm_num

/-- C5 amended: every call to `send_key_action` sleeps exactly the
configured pre-delay before writing the key event and exactly the
configured post-delay after emitting the sync; a configured zero delay
produces no sleep (there is no 1 ms / 2 ms minimum). -/
theorem C5_configured_delays (th : Throttles) (o : OutputState) (k : Nat) (a : Action) :
    (sendKeyAction th o k a).log =
      o.log ++ sleepMsEvents th.preMs ++ [OutEvent.keyEv k a, OutEvent.syn]
        ++ sleepMsEvents th.postMs ∧
    sleepMsEvents 0 = [] :=
  ⟨sendKeyAction_log th o k a, by unfold sleepMsEvents; simp⟩

end XWK

namespace XWK

/-- C8: while the suspend timer is armed, `resuspend_keys` with a strictly
shorter timeout than the last armed one changes nothing; with a timeout
greater than or equal it cancels the timer and re-arms via `suspend_keys`
with the new timeout, leaving the timer armed and the recorded timeout
equal to the new one. -/
theorem C8_resuspend_only_lengthens (timeout : Rat) (st : EngineState)
    (h : isSuspendedE st = true) :
    (timeout < st.lastSuspendTimeout → resuspendKeys timeout st = .ok st) ∧
    (st.lastSuspendTimeout ≤ timeout →
      resuspendKeys timeout st =
        .ok (suspendKeys timeout { st with suspendTimerArmed := false }) ∧
      (suspendKeys timeout { st with suspendTimerArmed := false }).lastSuspendTimeout
        = timeout ∧
      isSuspendedE (suspendKeys timeout { st with suspendTimerArmed := false }) = true) := by
  constructor
  · intro hlt
    unfold resuspendKeys
    rw [if_pos ⟨h, hlt⟩]
  · intro hle
    refine ⟨?_, rfl, rfl⟩
    unfold resuspendKeys
    rw [if_neg, if_pos h]
    rintro ⟨-, hlt⟩
    exact absurd hle (not_le.mpr hlt)

/-- C8 witness: a concrete armed state with last timeout 2; re-arming with
1 is a no-op, re-arming with 3 extends. -/
theorem C8_witness :
    resuspendKeys 1 { engineInit with suspendTimerArmed := true, lastSuspendTimeout := 2 }
      = .ok { engineInit with suspendTimerArmed := true, lastSuspendTimeout := 2 } ∧
    resuspendKeys 3 { engineInit with suspendTimerArmed := true, lastSuspendTimeout := 2 }
      = .ok (suspendKeys 3 { engineInit with lastSuspendTimeout := 2 }) ∧
    (suspendKeys 3 { engineInit with lastSuspendTimeout := 2 }).lastSuspendTimeout = 3 ∧
    isSuspendedE (suspendKeys 3 { engineInit with lastSuspendTimeout := 2 }) = true :=
  ⟨(C8_resuspend_only_lengthens 1 { engineInit with suspendTimerArmed := true, lastSuspendTimeout := 2 } rfl).1 (by norm_num),
   ((C8_resuspend_only_lengthens 3 { engineInit with suspendTimerArmed := true, lastSuspendTimeout := 2 } rfl).2 (by norm_num)).1,
   ((C8_resuspend_only_lengthens 3 { engineInit with suspendTimerArmed := true, lastSuspendTimeout := 2 } rfl).2 (by norm_num)).2.1,
   ((C8_resuspend_only_lengthens 3 { engineInit with suspendTimerArmed := true, lastSuspendTimeout := 2 } rfl).2 (by norm_num)).2.2⟩

end XWK

namespace XWK

theorem updatePressedKeys_pressedModKeys (o : OutputState) (k : Nat) (a : Action) :
    (updatePressedKeys o k a).pressedModKeys = o.pressedModKeys := by
  unfold updatePressedKeys
  split <;> rfl

theorem recordPassthroughTrack_pressedModKeys (o : OutputState) (k : Nat) (a : Action) :
    (recordPassthroughTrack o k a).pressedModKeys = o.pressedModKeys := by
  unfold recordPassthroughTrack
  split <;> rfl

theorem sendKeyAction_pressedModKeys_nonmod (th : Throttles) (o : OutputState)
    (k : Nat) (a : Action) (hk : isKeyModifier k = false) :
    (sendKeyAction th o k a).pressedModKeys = o.pressedModKeys := by
  unfold sendKeyAction updatePressedModifierKeys
  simp [hk, updatePressedKeys_pressedModKeys, recordPassthroughTrack_pressedModKeys]

/-- C7: with both the left-specific and right-specific key of a generic
modifier pressed on the output and a combo requesting the generic form of
that modifier, `send_combo` raises no exception (the guarded removal in
output.py prevents the historical KeyError) and writes exactly one PRESS
and one RELEASE of the combo's ordinary key, with the pressed-modifier
set unchanged. -/
theorem C7_generic_over_both_specifics (th : Throttles) (m : Modifier) (l r k : Nat)
    (o : OutputState)
    (hm : m.keys = [l, r])
    (hp : o.pressedModKeys = [l, r])
    (hk : isKeyModifier k = false) :
    ∃ o2, sendCombo th ⟨[m], k⟩ o = .ok o2 ∧
      keyEvents o2.log = keyEvents o.log ++ [(k, Action.press), (k, Action.release)] ∧
      o2.pressedModKeys = o.pressedModKeys := by
  have hq : comboLiftLoop o.pressedModKeys [m] o.pressedModKeys [m] = .ok ([], []) := by
    rw [hp]
    simp [comboLiftLoop, comboLiftLoop.comboLiftInner, Modifier.getKeys, hm]
  unfold sendCombo
  split
  all_goals
    simp only [bind, Except.bind, hq, List.reverse_nil, List.foldl_nil, List.map_nil]
    split
  all_goals
    refine ⟨_, rfl, ?_, ?_⟩ <;>
      simp [keyEvents_sendKeyAction, sendKeyAction_pressedModKeys_nonmod, hk, hp]

/-- C7 witness: LEFT_SHIFT (42) and RIGHT_SHIFT (54) pressed on the
output, combo SHIFT + key 30. -/
theorem C7_witness :
    ∃ o2, sendCombo ⟨0, 0⟩ ⟨[SHIFT], 30⟩
        { outputInit with pressedModKeys := [42, 54], pressedKeys := [42, 54] } = .ok o2 ∧
      keyEvents o2.log =
        keyEvents ({ outputInit with pressedModKeys := [42, 54], pressedKeys := [42, 54] } : OutputState).log
          ++ [(30, Action.press), (30, Action.release)] ∧
      o2.pressedModKeys =
        ({ outputInit with pressedModKeys := [42, 54], pressedKeys := [42, 54] } : OutputState).pressedModKeys :=
  C7_generic_over_both_specifics ⟨0, 0⟩ SHIFT 42 54 30
    { outputInit with pressedModKeys := [42, 54], pressedKeys := [42, 54] }
    rfl rfl (by decide)

/-- C1: at top level (no nested keymap active), with no window-context
error and a combo matching no rule in any context-selected keymap,
`transform_key` resumes suspended keys and passes the key through with
its own action via the fast-send operation, resetting the active keymap
list. -/
theorem C1_toplevel_passthrough (cfg : Cfg) (key : Nat) (action : Action) (ctx : XCtx)
    (st : EngineState)
    (hTop : st.activeKeymaps = ActiveKm.noneA)
    (hErr : truthy ctx.errVal = false)
    (hNoMatch : findComboInKeymaps (cfg.keymaps.filter (fun km => kmMatches km ctx))
        ⟨getPressedMods st, key⟩ = none) :
    transformKey cfg key action ctx st =
      .ok { resumeKeys cfg.throttles { st with activeKeymaps := ActiveKm.list (cfg.keymaps.filter (fun km => kmMatches km ctx)) } with
            out := sendKeyActionFast (resumeKeys cfg.throttles { st with activeKeymaps := ActiveKm.list (cfg.keymaps.filter (fun km => kmMatches km ctx)) }).out key action
            activeKeymaps := ActiveKm.noneA } := by
  unfold transformKey
  rw [hTop]
  simp only [hErr, Bool.false_eq_true, if_false, hNoMatch, if_true, ite_true]

/-- C1 witness: the empty-keymap configuration, a fresh error-free
context, and the initial engine state, with a PRESS of key 30. -/
theorem C1_witness :
    transformKey cfgEmpty 30 Action.press (freshCtx ⟨"app", "win", false⟩) engineInit =
      .ok { resumeKeys cfgEmpty.throttles { engineInit with activeKeymaps := ActiveKm.list (cfgEmpty.keymaps.filter (fun km => kmMatches km (freshCtx ⟨"app", "win", false⟩))) } with
            out := sendKeyActionFast (resumeKeys cfgEmpty.throttles { engineInit with activeKeymaps := ActiveKm.list (cfgEmpty.keymaps.filter (fun km => kmMatches km (freshCtx ⟨"app", "win", false⟩))) }).out 30 Action.press
            activeKeymaps := ActiveKm.noneA } :=
  C1_toplevel_passthrough cfgEmpty 30 Action.press (freshCtx ⟨"app", "win", false⟩)
    engineInit rfl rfl rfl

end XWK





namespace XWK

theorem filter_eraseL (p : Nat → Bool) (l : List Nat) (a : Nat) :
    (l.erase a).filter p = if p a then (l.filter p).erase a else l.filter p := by
  induction l with
  | nil => simp
  | cons b bs ih =>
    by_cases hba : b = a
    · subst hba
      by_cases hp : p b <;>
        simp [List.erase_cons_head, List.filter_cons, hp]
    · have het : ∀ l : List Nat, (b :: l).erase a = b :: l.erase a := by
        intro l
        rw [List.erase_cons_tail (by simp [hba])]
      rw [het]
      by_cases hp : p b <;> by_cases hpa : p a <;>
        simp [List.filter_cons, hp, hpa, ih, het]

theorem filter_setAdd_of_mod (pk : List Nat) (k : Nat)
    (hk : isKeyModifier k = true) :
    (setAdd pk k).filter (fun x => isKeyModifier x)
      = setAdd (pk.filter (fun x => isKeyModifier x)) k := by
  unfold setAdd
  by_cases hmem : k ∈ pk
  · simp only [hmem, if_true, if_pos (List.mem_filter.mpr ⟨hmem, hk⟩)]
  · simp only [hmem, if_false, List.filter_append, List.filter_cons, hk]
    rw [if_neg (fun hmem2 => hmem (List.mem_of_mem_filter hmem2))]
    rfl

theorem filter_setAdd_of_nonmod (pk : List Nat) (k : Nat)
    (hk : isKeyModifier k = false) :
    (setAdd pk k).filter (fun x => isKeyModifier x)
      = pk.filter (fun x => isKeyModifier x) := by
  unfold setAdd
  split
  · rfl
  · simp [List.filter_append, List.filter_cons, hk]

theorem updatePressedModifierKeys_pressedModKeys (o : OutputState) (k : Nat) (a : Action) :
    (updatePressedModifierKeys o k a).pressedModKeys =
      if isKeyModifier k then
        (if a.isPressed then setAdd o.pressedModKeys k else setDiscard o.pressedModKeys k)
      else o.pressedModKeys := by
  unfold updatePressedModifierKeys
  by_cases hk : isKeyModifier k
  · simp only [hk, Bool.not_true, Bool.false_eq_true, if_false, if_true]
    split <;> simp_all
  · simp_all

theorem updatePressedKeys_pressedKeys (o : OutputState) (k : Nat) (a : Action) :
    (updatePressedKeys o k a).pressedKeys =
      if a.isPressed then setAdd o.pressedKeys k else setDiscard o.pressedKeys k := by
  unfold updatePressedKeys
  split <;> simp_all

theorem updatePressedModifierKeys_pressedKeys (o : OutputState) (k : Nat) (a : Action) :
    (updatePressedModifierKeys o k a).pressedKeys = o.pressedKeys := by
  unfold updatePressedModifierKeys
  split
  · rfl
  · split <;> rfl

theorem recordPassthroughTrack_pressedKeys (o : OutputState) (k : Nat) (a : Action) :
    (recordPassthroughTrack o k a).pressedKeys = o.pressedKeys := by
  unfold recordPassthroughTrack
  split <;> rfl

theorem updatePressedKeys_pressedModKeys2 (o : OutputState) (k : Nat) (a : Action) :
    (updatePressedKeys o k a).pressedModKeys = o.pressedModKeys := by
  unfold updatePressedKeys
  split <;> rfl

theorem sendKeyAction_pressedModKeys (th : Throttles) (o : OutputState) (k : Nat)
    (a : Action) :
    (sendKeyAction th o k a).pressedModKeys =
      if isKeyModifier k then
        (if a.isPressed then setAdd o.pressedModKeys k else setDiscard o.pressedModKeys k)
      else o.pressedModKeys := by
  unfold sendKeyAction
  rw [recordPassthroughTrack_pressedModKeys, updatePressedKeys_pressedModKeys2,
    updatePressedModifierKeys_pressedModKeys]

theorem sendKeyAction_pressedKeys (th : Throttles) (o : OutputState) (k : Nat)
    (a : Action) :
    (sendKeyAction th o k a).pressedKeys =
      if a.isPressed then setAdd o.pressedKeys k else setDiscard o.pressedKeys k := by
  unfold sendKeyAction
  rw [recordPassthroughTrack_pressedKeys, updatePressedKeys_pressedKeys,
    updatePressedModifierKeys_pressedKeys]

theorem outInvariant_sendKeyAction (th : Throttles) (o : OutputState) (k : Nat)
    (a : Action) (h : outInvariant o) : outInvariant (sendKeyAction th o k a) := by
  unfold outInvariant at *
  rw [sendKeyAction_pressedModKeys, sendKeyAction_pressedKeys]
  by_cases hk : isKeyModifier k <;> by_cases hp : a.isPressed <;>
    simp only [hk, hp, if_true, if_false, Bool.false_eq_true]
  · rw [filter_setAdd_of_mod _ _ hk, h]
  · unfold setDiscard
    rw [filter_eraseL, if_pos hk, h]
  · rw [filter_setAdd_of_nonmod _ _ (by simpa using hk), h]
  · unfold setDiscard
    rw [filter_eraseL, if_neg (by simpa using hk), h]

end XWK

namespace XWK

theorem outInvariant_foldl_pair (th : Throttles) (a : Action) (l : List Nat)
    (o : OutputState) (acc : List Nat) (h : outInvariant o) :
    outInvariant (l.foldl
      (fun (acc : OutputState × List Nat) k => (sendKeyAction th acc.1 k a, acc.2 ++ [k]))
      (o, acc)).1 := by
  induction l generalizing o acc with
  | nil => exact h
  | cons x xs ih => exact ih (sendKeyAction th o x a) (acc ++ [x]) (outInvariant_sendKeyAction th o x a h)

theorem outInvariant_foldl_plain (th : Throttles) (a : Action) (l : List Nat)
    (o : OutputState) (h : outInvariant o) :
    outInvariant (l.foldl (fun acc k => sendKeyAction th acc k a) o) := by
  induction l generalizing o with
  | nil => exact h
  | cons x xs ih => exact ih (sendKeyAction th o x a) (outInvariant_sendKeyAction th o x a h)

theorem outInvariant_track (o : OutputState) (tv : Option TrackVal)
    (h : outInvariant o) : outInvariant { o with lastOutputForCache := tv } := h

theorem outInvariant_sendCombo (th : Throttles) (c : Combo) (o o2 : OutputState)
    (h : sendCombo th c o = .ok o2) (hi : outInvariant o) : outInvariant o2 := by
  unfold sendCombo at h
  split at h <;>
  · rcases hq : comboLiftLoop o.pressedModKeys c.modifiers o.pressedModKeys c.modifiers
      with e | ⟨lift, toPress⟩ <;>
      simp only [hq, bind, Except.bind] at h
    case error => exact Except.noConfusion h
    split at h <;> simp only [pure, Except.pure, Except.ok.injEq] at h
    · subst h
      exact outInvariant_foldl_plain th .release _ _
        (outInvariant_sendKeyAction th _ _ .release
          (outInvariant_sendKeyAction th _ _ .press
            (outInvariant_foldl_pair th .press _ _ _
              (outInvariant_foldl_pair th .release _ _ _ hi))))
    · subst h
      exact outInvariant_foldl_plain th .press _ _
        (outInvariant_foldl_plain th .release _ _
          (outInvariant_sendKeyAction th _ _ .release
            (outInvariant_sendKeyAction th _ _ .press
              (outInvariant_foldl_pair th .press _ _ _
                (outInvariant_foldl_pair th .release _ _ _ hi)))))

theorem outInvariant_sendKeyOut (th : Throttles) (k : Nat) (o o2 : OutputState)
    (h : sendKeyOut th k o = .ok o2) (hi : outInvariant o) : outInvariant o2 := by
  unfold sendKeyOut at h
  split at h
  · exact outInvariant_sendCombo th ⟨[], k⟩ _ o2 h hi
  · exact outInvariant_sendCombo th ⟨[], k⟩ _ o2 h hi

theorem outInvariant_outputShutdown (th : Throttles) (o : OutputState)
    (hi : outInvariant o) : outInvariant (outputShutdown th o) := by
  unfold outputShutdown
  exact outInvariant_foldl_plain th .release _ _
    (outInvariant_foldl_plain th .release _ _ hi)

theorem outInvariant_runOuts (th : Throttles) (o : OutputState) (ops : List OutOp)
    (hi : outInvariant o) : outInvariant (runOuts th o ops).1 := by
  induction ops generalizing o with
  | nil => exact hi
  | cons op rest ih =>
    unfold runOuts
    rcases hap : applyOutOp th o op with e | o1
    · exact hi
    · refine ih o1 ?_
      cases op with
      | ska k a =>
        cases a with
        | notAction => exact Except.noConfusion hap
        | act a0 =>
          simp only [applyOutOp, sendKeyActionChecked, Except.ok.injEq] at hap
          subst hap
          exact outInvariant_sendKeyAction th o k a0 hi
      | comboOp c => exact outInvariant_sendCombo th c o o1 hap hi
      | keyOp k => exact outInvariant_sendKeyOut th k o o1 hap hi
      | shutdownOp =>
        simp only [applyOutOp, Except.ok.injEq] at hap
        subst hap
        exact outInvariant_outputShutdown th o hi
      | sendEventOp =>
        simp only [applyOutOp, Except.ok.injEq] at hap
        subst hap
        exact hi

/-- C10: starting from the initial `Output` state, after any sequence of
`send_key_action`, `send_combo`, `send_key` and `shutdown` calls the
pressed-modifier set is exactly the modifier subset of the pressed set;
`send_event` touches neither set; and a `send_key_action` call whose
action argument is not an `Action` raises `TypeError` with both sets (and
the whole output state) unchanged. -/
theorem C10_output_bookkeeping :
    (∀ (th : Throttles) (ops : List OutOp), outInvariant (runOuts th outputInit ops).1) ∧
    (∀ o : OutputState, (sendEventOut o).pressedKeys = o.pressedKeys ∧
      (sendEventOut o).pressedModKeys = o.pressedModKeys) ∧
    (∀ (th : Throttles) (o : OutputState) (k : Nat),
      runOuts th o [OutOp.ska k PyActionArg.notAction] =
        (o, some "TypeError: Expected type Action")) :=
  ⟨fun th ops => outInvariant_runOuts th outputInit ops rfl,
   fun _ => ⟨rfl, rfl⟩,
   fun _ _ _ => rfl⟩

end XWK


namespace XWK

theorem foldl_sticky_eq {α : Type} (f : EngineState → α → EngineState) (l : List α)
    (s : EngineState) (hf : ∀ s x, (f s x).sticky = s.sticky) :
    (l.foldl f s).sticky = s.sticky := by
  induction l generalizing s with
  | nil => rfl
  | cons x xs ih => rw [List.foldl_cons, ih (f s x), hf]

theorem resumeOne_sticky (th : Throttles) (snap : List Nat) (st : EngineState) (ink : Nat) :
    (resumeOne th snap st ink).sticky = st.sticky := by
  unfold resumeOne
  repeat first | rfl | split | dsimp only

theorem resumeKeys_sticky (th : Throttles) (st : EngineState) :
    (resumeKeys th st).sticky = st.sticky := by
  unfold resumeKeys
  split
  · rfl
  · exact foldl_sticky_eq _ _ _ (fun s x => resumeOne_sticky th _ s x)

theorem suspendKeys_sticky (t : Rat) (st : EngineState) :
    (suspendKeys t st).sticky = st.sticky := rfl

theorem resuspendKeys_sticky (t : Rat) (st st2 : EngineState)
    (h : resuspendKeys t st = .ok st2) : st2.sticky = st.sticky := by
  unfold resuspendKeys at h
  split at h
  · cases h
    rfl
  · split at h
    · cases h
      rfl
    · exact Except.noConfusion h

theorem suspendOrResuspendKeys_sticky (t : Rat) (st : EngineState) :
    (suspendOrResuspendKeys t st).sticky = st.sticky := by
  unfold suspendOrResuspendKeys
  split
  · split <;> rfl
  · rfl

theorem updatePressedStates_sticky (st : EngineState) (ks : Keystate) :
    (updatePressedStates st ks).sticky = st.sticky := rfl

theorem writeCur_sticky (st : EngineState) (c : Keystate) :
    (writeCur st c).sticky = st.sticky := rfl

theorem markSpent_sticky (st : EngineState) :
    (markSpent st).sticky = st.sticky := rfl

theorem invalidateRepeatCache_sticky (st : EngineState) :
    (invalidateRepeatCache st).sticky = st.sticky := by
  unfold invalidateRepeatCache
  split <;> rfl

theorem populateRepeatCache_sticky (cfg : Cfg) (k : Nat) (a : Action) (st : EngineState) :
    (populateRepeatCache cfg k a st).sticky = st.sticky := by
  unfold populateRepeatCache
  repeat first | rfl | split | dsimp only

theorem resolveSuspendedMultisStep_sticky (th : Throttles) (st : EngineState) (ink : Nat) :
    (resolveSuspendedMultisStep th st ink).sticky = st.sticky := by
  unfold resolveSuspendedMultisStep
  repeat first | rfl | split | dsimp only

theorem resolveSuspendedMultis_sticky (th : Throttles) (st : EngineState) :
    (resolveSuspendedMultis th st).sticky = st.sticky :=
  foldl_sticky_eq _ _ _ (fun s x => resolveSuspendedMultisStep_sticky th s x)

theorem replayCachedOutput_sticky (cfg : Cfg) (rc : RepeatCacheL) (k : Nat)
    (a : Action) (st : EngineState) (b : Bool) (st2 : EngineState)
    (h : replayCachedOutput cfg rc k a st = .ok (b, st2)) : st2.sticky = st.sticky := by
  unfold replayCachedOutput at h
  split at h
  · cases h
    rfl
  · split at h
    · exact Except.noConfusion h
    · cases h
      rfl
  · split at h
    · exact Except.noConfusion h
    · cases h
      rfl

theorem tryReplayCachedRepeat_sticky (cfg : Cfg) (k : Nat) (a : Action)
    (st : EngineState) (b : Bool) (st2 : EngineState)
    (h : tryReplayCachedRepeat cfg k a st = .ok (b, st2)) : st2.sticky = st.sticky := by
  unfold tryReplayCachedRepeat at h
  split at h
  · cases h
    rfl
  · split at h
    · cases h
      rfl
    · split at h
      · cases h
        rfl
      · split at h
        · dsimp only at h
          split at h
          · cases h
            simp [invalidateRepeatCache_sticky]
          · have h2 := replayCachedOutput_sticky _ _ _ _ _ _ _ h
            exact h2
        · exact replayCachedOutput_sticky _ _ _ _ _ _ _ h

theorem simpleSticky_sticky (th : Throttles) (a b : Combo) (st : EngineState) :
    (simpleSticky th a b st).1.sticky = st.sticky := by
  unfold simpleSticky
  repeat first | rfl | split | dsimp only

theorem simpleSticky_len (th : Throttles) (a b : Combo) (st : EngineState) :
    (simpleSticky th a b st).2.length ≤ 1 := by
  unfold simpleSticky
  split <;> simp

end XWK

namespace XWK

theorem max1_trans {a b c : Nat} (h1 : a ≤ max 1 b) (h2 : b ≤ max 1 c) :
    a ≤ max 1 c :=
  le_trans h1 (max_le (le_max_left 1 c) h2)

theorem autoSticky_sticky_bound (th : Throttles) (cb : Combo) (ic : Option Combo)
    (st st2 : EngineState) (h : autoSticky th cb ic st = .ok st2) :
    st2.sticky.length ≤ max 1 st.sticky.length := by
  unfold autoSticky at h
  split at h
  · cases h
    exact le_max_right 1 _
  · split at h
    · exact Except.noConfusion h
    · cases h
      rw [foldl_sticky_eq]
      · exact le_max_of_le_left (simpleSticky_len th _ cb st)
      · intro s p
        split <;> rfl

theorem onModKeyRelease_sticky_bound (cfg : Cfg) (st : EngineState) (cur : Keystate)
    (key : Nat) :
    (onModKeyRelease cfg st cur key).1.sticky.length ≤ max 1 st.sticky.length := by
  unfold onModKeyRelease
  split
  · exact le_trans (List.length_filter_le _ _) (le_max_right 1 _)
  · split
    · exact le_max_right 1 _
    · simp only [resumeKeys_sticky]
      exact le_max_right 1 _

set_option maxHeartbeats 1000000 in
theorem onModKey_sticky_bound (cfg : Cfg) (st0 : EngineState) (cur0 : Keystate) :
    (onModKey cfg st0 cur0).1.sticky.length ≤ max 1 st0.sticky.length := by
  unfold onModKey
  dsimp only
  repeat' split
  all_goals
    simp only [updatePressedStates_sticky, writeCur_sticky, suspendOrResuspendKeys_sticky,
      resumeKeys_sticky]
  all_goals
    first
    | exact le_max_right 1 _
    | exact onModKeyRelease_sticky_bound cfg _ _ _

end XWK

namespace XWK

set_option maxHeartbeats 1600000 in
theorem executor_sticky_bound (fuel : Nat) :
    (∀ (cfg : Cfg) (cmds : List Command) (ic : Option Combo) (st t : EngineState)
        (r : Bool), handleCommandsL fuel cfg cmds ic st = .ok (t, r) →
        t.sticky.length ≤ max 1 st.sticky.length) ∧
    (∀ (cfg : Cfg) (cmds : List Command) (ic : Option Combo) (nb : Bool)
        (st t : EngineState) (r : Bool), cmdLoop fuel cfg cmds ic nb st = .ok (t, r) →
        t.sticky.length ≤ max 1 st.sticky.length) := by
  induction fuel with
  | zero =>
    constructor
    · intro cfg cmds ic st t r h
      simp [handleCommandsL] at h
    · intro cfg cmds ic nb st t r h
      simp [cmdLoop] at h
  | succ fuel ih =>
    obtain ⟨ihH, ihL⟩ := ih
    constructor
    · intro cfg cmds ic st t r h
      rw [handleCommandsL] at h
      rcases hq : (if isSuspendedE st then resuspendKeys cfg.timeoutSuspend st else .ok st)
        with e | st1
      · rw [hq] at h
        dsimp only at h
        cases h
      · rw [hq] at h
        dsimp only at h
        have hst1 : st1.sticky = st.sticky := by
          split at hq
          · exact resuspendKeys_sticky _ _ _ hq
          · cases hq
            rfl
        rcases hq2 : cmdLoop fuel cfg cmds ic false { st1 with out := allowSuspend st1.out }
          with e2 | pr
        · rw [hq2] at h
          dsimp only at h
          cases h
        · rw [hq2] at h
          dsimp only at h
          cases h
          have h3 := ihL cfg cmds ic false _ pr.1 pr.2 (by rw [hq2])
          simp only at h3
          rw [hst1] at h3
          exact h3
    · intro cfg cmds ic nb st t r h
      rw [cmdLoop.eq_def] at h
      match cmds with
      | [] =>
        dsimp only at h
        cases h
        exact le_max_right 1 _
      | .comboCmd cb :: rest =>
        dsimp only at h
        rcases hq : (if nb then autoSticky cfg.throttles cb ic st else .ok st) with e | st1
        · rw [hq] at h
          dsimp only at h
          cases h
        · rw [hq] at h
          dsimp only at h
          have hb1 : st1.sticky.length ≤ max 1 st.sticky.length := by
            split at hq
            · exact autoSticky_sticky_bound _ _ _ _ _ hq
            · cases hq
              exact le_max_right 1 _
          rcases hq2 : sendCombo cfg.throttles cb st1.out with e2 | o
          · rw [hq2] at h
            dsimp only at h
            cases h
          · rw [hq2] at h
            dsimp only at h
            have h3 := ihL cfg rest ic false _ t r h
            exact max1_trans h3 hb1
      | .keyCmd k :: rest =>
        dsimp only at h
        rcases hq : sendKeyOut cfg.throttles k st.out with e | o
        · rw [hq] at h
          dsimp only at h
          cases h
        · rw [hq] at h
          have h3 := ihL cfg rest ic false _ t r h
          simpa using h3
      | .escNextKeyCmd :: rest =>
        dsimp only at h
        cases h
        exact le_max_right 1 _
      | .escNextComboCmd :: rest =>
        dsimp only at h
        cases h
        exact le_max_right 1 _
      | .bindCmd :: rest =>
        dsimp only at h
        exact ihL cfg rest ic true st t r h
      | .ignoreCmd :: rest =>
        dsimp only at h
        cases h
        exact le_max_right 1 _
      | .kmCmd kid imm pairs :: rest =>
        dsimp only at h
        match imm with
        | some (Command.listCmd cs) =>
          dsimp only at h
          rcases hq : handleCommandsL fuel cfg cs none st with e | pr
          · rw [hq] at h
            dsimp only at h
            cases h
          · rw [hq] at h
            dsimp only at h
            cases h
            exact ihH cfg cs none st pr.1 pr.2 (by rw [hq])
        | some (Command.comboCmd c) =>
          dsimp only at h
          rcases hq : handleCommandsL fuel cfg [Command.comboCmd c] none st with e | pr
          · rw [hq] at h
            dsimp only at h
            cases h
          · rw [hq] at h
            dsimp only at h
            cases h
            exact ihH cfg _ none st pr.1 pr.2 (by rw [hq])
        | some (Command.keyCmd k) =>
          dsimp only at h
          rcases hq : handleCommandsL fuel cfg [Command.keyCmd k] none st with e | pr
          · rw [hq] at h
            dsimp only at h
            cases h
          · rw [hq] at h
            dsimp only at h
            cases h
            exact ihH cfg _ none st pr.1 pr.2 (by rw [hq])
        | some Command.escNextKeyCmd =>
          dsimp only at h
          rcases hq : handleCommandsL fuel cfg [Command.escNextKeyCmd] none st with e | pr
          · rw [hq] at h
            dsimp only at h
            cases h
          · rw [hq] at h
            dsimp only at h
            cases h
            exact ihH cfg _ none st pr.1 pr.2 (by rw [hq])
        | some Command.escNextComboCmd =>
          dsimp only at h
          rcases hq : handleCommandsL fuel cfg [Command.escNextComboCmd] none st with e | pr
          · rw [hq] at h
            dsimp only at h
            cases h
          · rw [hq] at h
            dsimp only at h
            cases h
            exact ihH cfg _ none st pr.1 pr.2 (by rw [hq])
        | some Command.bindCmd =>
          dsimp only at h
          rcases hq : handleCommandsL fuel cfg [Command.bindCmd] none st with e | pr
          · rw [hq] at h
            dsimp only at h
            cases h
          · rw [hq] at h
            dsimp only at h
            cases h
            exact ihH cfg _ none st pr.1 pr.2 (by rw [hq])
        | some Command.ignoreCmd =>
          dsimp only at h
          rcases hq : handleCommandsL fuel cfg [Command.ignoreCmd] none st with e | pr
          · rw [hq] at h
            dsimp only at h
            cases h
          · rw [hq] at h
            dsimp only at h
            cases h
            exact ihH cfg _ none st pr.1 pr.2 (by rw [hq])
        | some Command.nullCmd =>
          dsimp only at h
          rcases hq : handleCommandsL fuel cfg [Command.nullCmd] none st with e | pr
          · rw [hq] at h
            dsimp only at h
            cases h
          · rw [hq] at h
            dsimp only at h
            cases h
            exact ihH cfg _ none st pr.1 pr.2 (by rw [hq])
        | some (Command.kmCmd kid2 imm2 pairs2) =>
          dsimp only at h
          rcases hq : handleCommandsL fuel cfg [Command.kmCmd kid2 imm2 pairs2] none st
            with e | pr
          · rw [hq] at h
            dsimp only at h
            cases h
          · rw [hq] at h
            dsimp only at h
            cases h
            exact ihH cfg _ none st pr.1 pr.2 (by rw [hq])
        | none =>
          dsimp only at h
          cases h
          exact le_max_right 1 _
      | .listCmd cs :: rest =>
        dsimp only at h
        rcases hq : handleCommandsL fuel cfg cs none st with e | pr
        · rw [hq] at h
          dsimp only at h
          cases h
        · rw [hq] at h
          have hb1 : pr.1.sticky.length ≤ max 1 st.sticky.length :=
            ihH cfg cs none st pr.1 pr.2 (by rw [hq])
          match pr, hb1, h with
          | (st1, false), hb1, h =>
            cases h
            exact hb1
          | (st1, true), hb1, h =>
            exact max1_trans (ihL cfg rest ic false st1 t r h) hb1
      | .nullCmd :: rest =>
        dsimp only at h
        exact ihL cfg rest ic false st t r h

end XWK

namespace XWK

theorem handleCommands_sticky_bound (cfg : Cfg) (cmd : Command) (ic : Option Combo)
    (st t : EngineState) (r : Bool) (h : handleCommands cfg cmd ic st = .ok (t, r)) :
    t.sticky.length ≤ max 1 st.sticky.length := by
  unfold handleCommands at h
  split at h
  · exact (executor_sticky_bound _).1 cfg _ ic st t r h
  · exact (executor_sticky_bound _).1 cfg _ ic st t r h

set_option maxHeartbeats 1000000 in
theorem transformKey_sticky_bound (cfg : Cfg) (key : Nat) (action : Action) (ctx : XCtx)
    (st t : EngineState) (h : transformKey cfg key action ctx st = .ok t) :
    t.sticky.length ≤ max 1 st.sticky.length := by
  unfold transformKey at h
  split at h
  · cases h
    simp only [resumeKeys_sticky]
    exact le_max_right 1 _
  · dsimp only at h
    split at h
    · cases h
      exact le_max_right 1 _
    · split at h
      · cases h
        exact le_max_right 1 _
      · cases h
        simp only [resumeKeys_sticky]
        exact le_max_right 1 _
    · split at h
      · split at h
        · cases h
        · rename_i st1 resetMode heq
          cases h
          have h4 := handleCommands_sticky_bound cfg _ _ _ st1 resetMode heq
          simp only [markSpent_sticky] at h4
          split <;> exact h4
      · cases h
        split
        · simp only [resumeKeys_sticky]
          exact le_max_right 1 _
        · exact le_max_right 1 _

end XWK

namespace XWK

theorem onKeyCacheBlock_sticky (cfg : Cfg) (key : Nat) (a : Action) (st : EngineState)
    (b : Bool) (st2 : EngineState) (h : onKeyCacheBlock cfg key a st = .ok (b, st2)) :
    st2.sticky = st.sticky := by
  unfold onKeyCacheBlock at h
  split at h
  · rcases hq : (if a.isRepeat then tryReplayCachedRepeat cfg key a st else .ok (false, st))
      with e | pr
    · rw [hq] at h
      cases h
    · rw [hq] at h
      have hpr : pr.2.sticky = st.sticky := by
        split at hq
        · exact tryReplayCachedRepeat_sticky cfg key a st pr.1 pr.2 hq
        · cases hq
          rfl
      obtain ⟨b1, stA⟩ := pr
      simp only at hpr
      cases b1
      · dsimp only at h
        repeat' split at h
        all_goals cases h
        all_goals simp [invalidateRepeatCache_sticky, hpr]
      · dsimp only at h
        cases h
        exact hpr
  · cases h
    rfl

theorem onKeyFirstRepeatBlock_sticky (cfg : Cfg) (key : Nat) (a : Action)
    (st : EngineState) (b : Bool) (st2 : EngineState)
    (h : onKeyFirstRepeatBlock cfg key a st = .ok (b, st2)) :
    st2.sticky = st.sticky := by
  unfold onKeyFirstRepeatBlock at h
  split at h
  · dsimp only at h
    split at h
    · have h2 := tryReplayCachedRepeat_sticky cfg key a _ b st2 h
      simp only [populateRepeatCache_sticky] at h2
      exact h2
    · cases h
      simp [populateRepeatCache_sticky]
  · cases h
    rfl

theorem onKeyAwaitClear_sticky (key : Nat) (a : Action) (st : EngineState) :
    (onKeyAwaitClear key a st).sticky = st.sticky := by
  unfold onKeyAwaitClear
  repeat first | rfl | split | dsimp only

theorem onKeyTail_sticky (key : Nat) (a : Action) (st : EngineState) :
    (onKeyTail key a st).sticky = st.sticky := by
  unfold onKeyTail
  repeat first | rfl | split | dsimp only

set_option maxHeartbeats 1000000 in
theorem onKeyDispatch_sticky_bound (cfg : Cfg) (ctx : XCtx) (key : Nat) (a : Action)
    (st : EngineState) (cur : Keystate) (t : EngineState) (c2 : Keystate)
    (h : onKeyDispatch cfg ctx key a st cur = .ok (t, c2)) :
    t.sticky.length ≤ max 1 st.sticky.length := by
  unfold onKeyDispatch at h
  split at h
  · have h5 := onModKey_sticky_bound cfg st cur
    injection h with h1
    rw [h1] at h5
    simpa using h5
  · split at h
    · cases h
      simp only [suspendKeys_sticky, updatePressedStates_sticky, writeCur_sticky]
      exact le_max_right 1 _
    · split at h
      · cases h
        exact le_max_right 1 _
      · split at h
        · dsimp only at h
          split at h
          · cases h
          · rename_i stA curA heq
            cases h
            simp only [updatePressedStates_sticky]
            split at heq
            · split at heq
              · cases heq
              · rename_i st3 heq2
                cases heq
                have h6 := transformKey_sticky_bound cfg key a ctx _ _ heq2
                simp only [resumeKeys_sticky, writeCur_sticky] at h6
                split at h6
                · simp only at h6
                  exact h6
                · exact h6
            · cases heq
              split
              · exact le_max_right 1 _
              · exact le_max_right 1 _
        · split at h
          · cases h
          · rename_i st3 heq
            have h7 := transformKey_sticky_bound cfg key a ctx st st3 heq
            cases h
            exact h7

end XWK

namespace XWK

theorem findKeystateOrNew_sticky (st : EngineState) (inkey : Nat) (a : Action) :
    (findKeystateOrNew st inkey a).1.sticky = st.sticky := by
  unfold findKeystateOrNew
  repeat first | rfl | split | dsimp only

set_option maxHeartbeats 1000000 in
theorem onKey_sticky_bound (cfg : Cfg) (ctx : XCtx) (st0 : EngineState) (cur0 : Keystate)
    (t : EngineState) (h : onKey cfg ctx st0 cur0 = .ok t) :
    t.sticky.length ≤ max 1 st0.sticky.length := by
  unfold onKey at h
  dsimp only at h
  split at h
  · cases h
  · rename_i stA heqA
    have hA := onKeyCacheBlock_sticky _ _ _ _ _ _ heqA
    cases h
    rw [hA]
    exact le_max_right 1 _
  · rename_i stB heqB
    have hB := onKeyCacheBlock_sticky _ _ _ _ _ _ heqB
    split at h
    · cases h
    · rename_i stC heqC
      have hC := onKeyFirstRepeatBlock_sticky _ _ _ _ _ _ heqC
      cases h
      rw [hC, hB]
      exact le_max_right 1 _
    · rename_i stC heqC
      have hC := onKeyFirstRepeatBlock_sticky _ _ _ _ _ _ heqC
      split at h
      · cases h
      · rename_i stD curD heqD
        have h7 := onKeyDispatch_sticky_bound _ _ _ _ _ _ _ _ heqD
        cases h
        rw [onKeyTail_sticky]
        split at h7
        · simp only [resolveSuspendedMultis_sticky, onKeyAwaitClear_sticky, hC, hB] at h7
          exact h7
        · simp only [onKeyAwaitClear_sticky, hC, hB] at h7
          exact h7

set_option maxHeartbeats 1000000 in
theorem onEvent_sticky_bound (cfg : Cfg) (ev : InEvent) (st : EngineState)
    (t : EngineState) (h : onEvent cfg ev st = .ok t) :
    t.sticky.length ≤ max 1 st.sticky.length := by
  unfold onEvent at h
  match ev with
  | .timerFire =>
    cases h
    rw [resumeKeys_sticky]
    exact le_max_right 1 _
  | .nonKey =>
    cases h
    exact le_max_right 1 _
  | .key code action =>
    dsimp only at h
    split at h
    · cases h
      split
      · exact le_max_right 1 _
      · exact le_max_right 1 _
    · have h8 := onKey_sticky_bound _ _ _ _ _ h
      repeat' split at h8
      all_goals
        first
        | exact h8
        | (simp only [writeCur_sticky, findKeystateOrNew_sticky] at h8; exact h8)

end XWK

namespace XWK

/-- C6: at every reachable engine state the sticky table `_sticky` holds at
most one entry, and `auto_sticky` invoked while the table is non-empty is a
no-op: it returns the engine state (sticky table and output synthesizer
state included) unchanged. -/
theorem C6_sticky_uniqueness :
    (∀ (cfg : Cfg) (s : EngineState), Reachable cfg s → s.sticky.length ≤ 1) ∧
    (∀ (th : Throttles) (cb : Combo) (ic : Option Combo) (st : EngineState),
      st.sticky ≠ [] → autoSticky th cb ic st = .ok st) := by
  constructor
  · intro cfg s hr
    induction hr with
    | init => simp [engineInit]
    | step hr heq ih =>
      have hb := onEvent_sticky_bound _ _ _ _ heq
      exact le_trans hb (max_le le_rfl ih)
  · intro th cb ic st hne
    unfold autoSticky
    split
    · rfl
    · rename_i hlen
      exact absurd (List.eq_nil_of_length_eq_zero (Nat.eq_zero_of_not_pos hlen)) hne

/-- Witness for C6 at concrete inputs: the initial state satisfies the
bound, and a second BIND against a state holding the sticky entry
`(30, 42)` is refused without touching the state. -/
theorem C6_witness :
    engineInit.sticky.length ≤ 1 ∧
    autoSticky ⟨0, 0⟩ ⟨[], 30⟩ none { engineInit with sticky := [(30, 42)] } =
      .ok { engineInit with sticky := [(30, 42)] } :=
  ⟨C6_sticky_uniqueness.1 cfgEmpty engineInit Reachable.init,
   C6_sticky_uniqueness.2 ⟨0, 0⟩ ⟨[], 30⟩ none _ (by decide)⟩

end XWK
